import Mathlib

/-!
Shallow embedding of the KS10FPGA FPGA-Loader configuration sequencer
(src/fpga_loader.cpp, src/fpga_loader.hpp) and proofs about it.

The memory-mapped hardware registers fall into two groups:

* registers whose value is driven by the hardware (the FPGA manager status
  register `stat`, the port-A monitor register `gpio_ext_porta`, and the
  DCLK status register `dclkstat`): a read of such a register samples the
  current hardware value.  We model each of them as an oracle function from
  the index of the read (how many reads of that register the run has
  performed so far) to the 32-bit value returned by that read.

* registers that store what software wrote to them (the control register
  `ctrl`): a read returns the last written value.  We model `ctrl` as a
  stored field of the machine state, initialised from the unknown value the
  hardware register holds before the run starts (`Env.ctrl0`).

Writes to registers are recorded, in program order, in a write trace, so
that theorems can speak about which register writes a run performs.
Machine integers are modelled as `Nat` with an explicit truncation
`% 2 ^ 32` at the read/write boundary (`read32m`), mirroring `uint32_t`.
-/


/-- Oracle for the hardware-driven registers plus the unknown pre-run value
of the control register.  `stat i` is the value returned by the i-th read
of the FPGA manager status register, and similarly for `porta`
(gpio_ext_porta) and `dclk` (dclkstat). -/
structure Env where
  ctrl0 : Nat
  stat : Nat → Nat
  porta : Nat → Nat
  dclk : Nat → Nat

/-- The registers written by loadFPGA: the system manager module register,
the FPGA manager control register, the port-A end-of-interrupt register,
the configuration data port, the DCLK count register and the DCLK status
register. -/
inductive Reg where
  | sysmodule
  | ctrl
  | eoi
  | data
  | dclkcnt
  | dclkstat
deriving DecidableEq, Repr

/-- Machine state threaded through the run: one read counter per
hardware-driven register, the stored control register value, and the trace
of all register writes in program order. -/
structure St where
  statReads : Nat
  portaReads : Nat
  dclkReads : Nat
  ctrl : Nat
  writes : List (Reg × Nat)
deriving DecidableEq, Repr

/-- Truncation of a value to 32 bits, as performed by a `uint32_t`
register access (fpga_loader.hpp lines 179-199). -/
def read32m (v : Nat) : Nat := v % 4294967296

/-- Read of the FPGA manager status register: samples the stat oracle at
the current read index and advances it. -/
def readStat (env : Env) (s : St) : Nat × St :=
  (read32m (env.stat s.statReads), { s with statReads := s.statReads + 1 })

/-- Read of the port-A monitor register gpio_ext_porta. -/
def readPorta (env : Env) (s : St) : Nat × St :=
  (read32m (env.porta s.portaReads), { s with portaReads := s.portaReads + 1 })

/-- Read of the DCLK status register dclkstat. -/
def readDclk (env : Env) (s : St) : Nat × St :=
  (read32m (env.dclk s.dclkReads), { s with dclkReads := s.dclkReads + 1 })

/-- write32 to a plain register: records the written (truncated) value in
the trace. -/
def wr (r : Reg) (v : Nat) (s : St) : St :=
  { s with writes := s.writes ++ [(r, read32m v)] }

/-- write32 to the control register: records the write and updates the
stored value that subsequent read32(ctrl) calls return. -/
def wrCtrl (v : Nat) (s : St) : St :=
  { s with ctrl := read32m v, writes := s.writes ++ [(Reg.ctrl, read32m v)] }

/-- Bit masks of the FPGAMGR control register (fpga_loader.hpp 114-124). -/
def en : Nat := 0x00000001

/-- Control register nCE mask (fpga_loader.hpp line 116). -/
def nce : Nat := 0x00000002

/-- Control register nCONFIG pull mask (fpga_loader.hpp line 117). -/
def nconfigpull : Nat := 0x00000004

/-- Control register clock-to-data-ratio field mask (hpp line 121). -/
def cdratio : Nat := 0x000000c0

/-- Control register AXI configuration enable mask (hpp line 122). -/
def axicfgen : Nat := 0x00000100

/-- Control register configuration data width mask (hpp line 123). -/
def cfgwdth : Nat := 0x00000200

/-- Status register mode value for the Reset state (hpp line 132). -/
def mode_reset : Nat := 0x00000001

/-- Status register mode value for the Configuration state (hpp 133). -/
def mode_config : Nat := 0x00000002

/-- Status register mode value for the User state (hpp line 135). -/
def mode_user : Nat := 0x00000004

/-- Port-A nSTATUS bit (fpga_loader.hpp line 145). -/
def ns : Nat := 0x00000001

/-- Port-A CONF_DONE bit (fpga_loader.hpp line 146). -/
def cd : Nat := 0x00000002

/-- DCLK status register done bit (fpga_loader.hpp line 165). -/
def dcntdone : Nat := 0x00000001

/-- Complement of a mask within a 32-bit word, as computed by the C
operator on uint32_t values. -/
def compl32 (x : Nat) : Nat := 0xffffffff ^^^ x

/-- Embeds fpga_loader_t::get_msel (fpga_loader.hpp lines 216-218) as a
function of the status register value it reads. -/
def get_msel (v : Nat) : Nat := (v >>> 3) &&& 0x1f

/-- Embeds fpga_loader_t::get_state (fpga_loader.hpp lines 235-237) as a
function of the status register value it reads. -/
def get_state (v : Nat) : Nat := (v >>> 0) &&& 0x07

/-- Embeds fpga_loader_t::print_state (fpga_loader.hpp lines 251-260) as a
function of the status register value it reads. -/
def print_state (v : Nat) : String :=
  if get_state v = 0 then "Off"
  else if get_state v = 1 then "Reset"
  else if get_state v = 2 then "Configuration"
  else if get_state v = 3 then "Initialization"
  else if get_state v = 4 then "User"
  else "Undetermined"

/-- One mode-poll loop of loadFPGA (the for-loops at fpga_loader.cpp lines
333-337, 362-366 and 494-498): read the status register; stop when the
mode bits equal the target, otherwise sleep and retry while fuel remains. -/
def pollModeLoop (env : Env) (target : Nat) : Nat → St → St
  | 0, s => s
  | n + 1, s =>
    let v := (readStat env s).1
    let s1 := (readStat env s).2
    if get_state v = target then s1
    else pollModeLoop env target n s1

/-- A complete mode poll of loadFPGA: the 1000-iteration loop followed by
the post-loop re-read that decides success (fpga_loader.cpp lines 333-342,
362-371 and 494-503).  Returns the decision and the resulting state. -/
def pollMode (env : Env) (target : Nat) (s : St) : Bool × St :=
  let s1 := pollModeLoop env target 1000 s
  let v := (readStat env s1).1
  let s2 := (readStat env s1).2
  (get_state v == target, s2)

/-- The port-A poll loop of loadFPGA step 11 (fpga_loader.cpp lines
411-422): each iteration reads gpio_ext_porta masked to CONF_DONE and
nSTATUS; a masked value of 0 returns failure at once (third component
true), the full mask breaks out of the loop, anything else keeps polling;
when the fuel runs out the loop exits holding the value read in its final
iteration.  Returns (final status value, state, early-failure flag). -/
def portaLoop (env : Env) : Nat → St → Nat × St × Bool
  | 0, s => (0, s, false)
  | n + 1, s =>
    let v := (readPorta env s).1
    let s1 := (readPorta env s).2
    let status := v &&& (cd ||| ns)
    if status = 0 then (status, s1, true)
    else if status = cd ||| ns then (status, s1, false)
    else
      match n with
      | 0 => (status, s1, false)
      | m + 1 => portaLoop env (m + 1) s1

/-- The complete data-accept poll of loadFPGA step 11 (fpga_loader.cpp
lines 411-427): the loop, then the post-loop check of the remembered
status variable.  Returns the decision and the resulting state. -/
def pollPorta (env : Env) (s : St) : Bool × St :=
  let r := portaLoop env 1000 s
  if r.2.2 then (false, r.2.1)
  else (r.1 == cd ||| ns, r.2.1)

/-- The DCLK poll loop of loadFPGA step 14 (fpga_loader.cpp lines
468-473): each of up to 100 iterations reads dclkstat masked to the done
bit and breaks when it is set; when the fuel runs out the loop exits
holding the value read in its final iteration. -/
def dclkLoop (env : Env) : Nat → St → Nat × St
  | 0, s => (0, s)
  | n + 1, s =>
    let v := (readDclk env s).1
    let s1 := (readDclk env s).2
    let status := v &&& dcntdone
    if status = dcntdone then (status, s1)
    else
      match n with
      | 0 => (status, s1)
      | m + 1 => dclkLoop env (m + 1) s1

/-- The complete DCLK poll of loadFPGA step 14 (fpga_loader.cpp lines
468-478): the loop, then the post-loop check of the remembered status
variable. -/
def pollDclk (env : Env) (s : St) : Bool × St :=
  let r := dclkLoop env 100 s
  (r.1 == dcntdone, r.2)

/-- Step 10 of loadFPGA (fpga_loader.cpp lines 398-400): write every image
word, in order, to the configuration data port. -/
def streamData (img : List Nat) (s : St) : St :=
  img.foldl (fun t w => wr Reg.data w t) s

/-- The phase a failing run of loadFPGA stopped in, one per EXIT_FAILURE
return site of fpga_loader.cpp (lines 341, 370, 416 and 426, 477, 502). -/
inductive Phase where
  | reset
  | config
  | dataAccept
  | dclk
  | user
deriving DecidableEq, Repr

/-- Result tag of a run: EXIT_SUCCESS, or EXIT_FAILURE tagged with the
return site that produced it. -/
inductive Outcome where
  | success
  | failure (p : Phase)
deriving DecidableEq, Repr

/-- A finished run: its outcome, whether the MSEL mismatch warning was
printed, and the final machine state. -/
structure RunResult where
  outcome : Outcome
  warn : Bool
  final : St
deriving DecidableEq, Repr

/-- The debug-mode transition report (fpga_loader.cpp lines 344-346,
373-375, 429-431 and 505-507): when the debug flag is set, print_state
performs one extra read of the status register; otherwise nothing
happens. -/
def dbgRead (env : Env) (dbg : Bool) (s : St) : St :=
  if dbg then (readStat env s).2 else s

/-- Steps 15-17 of loadFPGA (fpga_loader.cpp lines 480-528): clear the
DCLK done flag, poll for User mode (with the optional debug read of the
status register by print_state on success, lines 505-507), then clear the
enable bit and return success. -/
def afterDclk (env : Env) (dbg : Bool) (s : St) : Outcome × St :=
  let s := wr Reg.dclkstat 1 s
  let r := pollMode env mode_user s
  if r.1 then
    let s := dbgRead env dbg r.2
    let s := wrCtrl (s.ctrl &&& compl32 en) s
    (Outcome.success, s)
  else (Outcome.failure Phase.user, r.2)

/-- Steps 12-13 of loadFPGA (fpga_loader.cpp lines 429-461): the optional
debug read of the status register (lines 429-431), clear axicfgen, clear a
stale DCLK done flag, arm the DCLK counter with 4. -/
def afterDataPre (env : Env) (dbg : Bool) (s : St) : St :=
  let s := dbgRead env dbg s
  let s := wrCtrl (s.ctrl &&& compl32 axicfgen) s
  let v := (readDclk env s).1
  let s := (readDclk env s).2
  let s := if v ≠ 0 then wr Reg.dclkstat 1 s else s
  wr Reg.dclkcnt 4 s

/-- Steps 12-14 of loadFPGA (fpga_loader.cpp lines 429-478): the step
12-13 writes, then the poll for DCLK completion. -/
def afterData (env : Env) (dbg : Bool) (s : St) : Outcome × St :=
  let r := pollDclk env (afterDataPre env dbg s)
  if r.1 then afterDclk env dbg r.2
  else (Outcome.failure Phase.dclk, r.2)

/-- Steps 8-10 of loadFPGA (fpga_loader.cpp lines 373-400): the optional
debug read of the status register (lines 373-375), clear port-A interrupt
status, set axicfgen, stream the image to the data port. -/
def afterConfigPre (env : Env) (img : List Nat) (dbg : Bool) (s : St) : St :=
  let s := dbgRead env dbg s
  let s := wr Reg.eoi 0x00000fff s
  let s := wrCtrl (s.ctrl ||| axicfgen) s
  streamData img s

/-- Steps 8-11 of loadFPGA (fpga_loader.cpp lines 373-427): the step 8-10
writes and streaming, then the data-accept poll. -/
def afterConfig (env : Env) (img : List Nat) (dbg : Bool) (s : St) :
    Outcome × St :=
  let r := pollPorta env (afterConfigPre env img dbg s)
  if r.1 then afterData env dbg r.2
  else (Outcome.failure Phase.dataAccept, r.2)

/-- Step 6 of loadFPGA (fpga_loader.cpp lines 344-354): the optional debug
read of the status register (lines 344-346), release nCONFIG. -/
def afterResetPre (env : Env) (dbg : Bool) (s : St) : St :=
  let s := dbgRead env dbg s
  wrCtrl (s.ctrl &&& compl32 nconfigpull) s

/-- Steps 6-7 of loadFPGA (fpga_loader.cpp lines 344-371): the step 6
write, then the poll for the Configuration state. -/
def afterReset (env : Env) (img : List Nat) (dbg : Bool) (s : St) :
    Outcome × St :=
  let r := pollMode env mode_config (afterResetPre env dbg s)
  if r.1 then afterConfig env img dbg r.2
  else (Outcome.failure Phase.config, r.2)

/-- The control register value stored by step 1 of loadFPGA
(fpga_loader.cpp line 300). -/
def ctrl1 (env : Env) : Nat :=
  read32m (0x01 ||| (read32m env.ctrl0 &&& (cdratio ||| cfgwdth)))

/-- The control register value stored by step 2 of loadFPGA (line 308). -/
def ctrl2 (env : Env) : Nat := read32m (ctrl1 env &&& compl32 nce)

/-- The control register value stored by step 3 of loadFPGA (line 317). -/
def ctrl3 (env : Env) : Nat := read32m (ctrl2 env ||| en)

/-- The control register value stored by step 4 of loadFPGA (line 325). -/
def ctrl4 (env : Env) : Nat := read32m (ctrl3 env ||| nconfigpull)

/-- The write trace accumulated by loadFPGA before the Reset poll. -/
def preludeWrites (env : Env) : List (Reg × Nat) :=
  [(Reg.sysmodule, read32m 0), (Reg.ctrl, ctrl1 env), (Reg.ctrl, ctrl2 env),
    (Reg.ctrl, ctrl3 env), (Reg.ctrl, ctrl4 env)]

/-- Embeds fpga_loader_t::loadFPGA (fpga_loader.cpp lines 197-529): the
MSEL strap check (warning only), the system manager gating write, control
register steps 1-4, the Reset poll, and the later phases via the after*
functions.  The mmap bookkeeping, usleep delays and message printing have
no register-level effect and are not modelled; the debug flag is kept
because a debug run performs an extra status register read at each
successful transition. -/
def loadFPGA (env : Env) (img : List Nat) (dbg : Bool) : RunResult :=
  let s : St := { statReads := 0, portaReads := 0, dclkReads := 0,
                  ctrl := read32m env.ctrl0, writes := [] }
  let v := (readStat env s).1
  let s := (readStat env s).2
  let w := get_msel v != 0x0a
  let s := wr Reg.sysmodule 0 s
  let s := wrCtrl (0x01 ||| (s.ctrl &&& (cdratio ||| cfgwdth))) s
  let s := wrCtrl (s.ctrl &&& compl32 nce) s
  let s := wrCtrl (s.ctrl ||| en) s
  let s := wrCtrl (s.ctrl ||| nconfigpull) s
  let r := pollMode env mode_reset s
  let pr := if r.1 then afterReset env img dbg r.2
            else (Outcome.failure Phase.reset, r.2)
  { outcome := pr.1, warn := w, final := pr.2 }

/-- The sub-sequence of data-port writes in a write trace. -/
def dataWritesL (l : List (Reg × Nat)) : List Nat :=
  (l.filter (fun p => p.1 == Reg.data)).map Prod.snd

/-- Shorthand for the masked port-A sample tested by the step 11 poll:
the value of the i-th gpio_ext_porta read masked to CONF_DONE and
nSTATUS. -/
def portaVal (env : Env) (i : Nat) : Nat := read32m (env.porta i) &&& (cd ||| ns)

/-- A hardware oracle under which every poll of loadFPGA succeeds at its
first sample and the MSEL straps read the expected 0x0a: status reads give
the MSEL field, then Reset, Configuration and finally User mode; port A
reports CONF_DONE and nSTATUS at once; the DCLK done bit sets after
arming. -/
def goodEnv : Env :=
  { ctrl0 := 0,
    stat := fun i => if i = 0 then 0x50 else if i ≤ 2 then 1
      else if i ≤ 4 then 2 else 4,
    porta := fun _ => cd ||| ns,
    dclk := fun i => if i = 0 then 0 else 1 }

/-- The goodEnv oracle with a different pre-run control register value. -/
def env5b : Env := { goodEnv with ctrl0 := 0x2c0 }

/-- An oracle whose status register never leaves mode 0 and whose port A
and DCLK status always read zero. -/
def zeroEnv : Env :=
  { ctrl0 := 0, stat := fun _ => 0, porta := fun _ => 0, dclk := fun _ => 0 }

/-- An oracle whose port-A register always reads nSTATUS = 1, CONF_DONE =
0 (a mixed combination); status register and DCLK status read zero. -/
def onesPortaEnv : Env :=
  { ctrl0 := 0, stat := fun _ => 0, porta := fun _ => ns, dclk := fun _ => 0 }

/-- An oracle whose port-A register always reads zero in both monitored
bits. -/
def zeroPortaEnv : Env :=
  { ctrl0 := 0, stat := fun _ => 0, porta := fun _ => 0, dclk := fun _ => 0 }

/-- An oracle whose port-A register always reads CONF_DONE = 1 and
nSTATUS = 1. -/
def threePortaEnv : Env :=
  { ctrl0 := 0, stat := fun _ => 0, porta := fun _ => cd ||| ns,
    dclk := fun _ => 0 }

/-- The goodEnv status oracle combined with a port A that always reads the
mixed combination nSTATUS = 1, CONF_DONE = 0: the run reaches the
data-accept poll and then sees one monitored bit at 0 at every sampled
instant. -/
def mixedRunEnv : Env := { goodEnv with porta := fun _ => ns }

/-- An oracle whose port A reads the mixed combination nSTATUS = 1,
CONF_DONE = 0 for the first 1000 samples and both bits 1 from sample 1000
on: the in-budget samples keep the poll spinning, and the value a fresh
post-budget read would deliver differs from the remembered one. -/
def freshEnv : Env :=
  { ctrl0 := 0, stat := fun _ => 0,
    porta := fun i => if i < 1000 then ns else cd ||| ns,
    dclk := fun _ => 0 }

/-- The machine state at the start of a poll, with no reads or writes
performed yet. -/
def st0 : St :=
  { statReads := 0, portaReads := 0, dclkReads := 0, ctrl := 0, writes := [] }

/-- The data-accept poll as claim C4 words it: identical to pollPorta
except that the post-budget failure decision re-reads the port-A register
at the moment of the check instead of using the value remembered from the
final loop iteration.  This definition follows the claim text and exists
only to be compared against the pollPorta embedding of the code. -/
def pollPortaFresh (env : Env) (s : St) : Bool × St :=
  let r := portaLoop env 1000 s
  if r.2.2 then (false, r.2.1)
  else if r.1 == cd ||| ns then (true, r.2.1)
  else
    let v := (readPorta env r.2.1).1
    let s2 := (readPorta env r.2.1).2
    (v &&& (cd ||| ns) == cd ||| ns, s2)

/-- The machine state of loadFPGA entering the Reset poll: one status read
(the MSEL check) performed, steps 1-4 written. -/
def preludeSt (env : Env) : St :=
  { statReads := 1, portaReads := 0, dclkReads := 0,
    ctrl := ctrl4 env, writes := preludeWrites env }

/-! ### Lemmas -/

/-- Unfolded form of the part of loadFPGA before the Reset poll: the warn
flag comes from the first status register read, and the machine state
entering the Reset poll holds the step 1-4 control values and the five
prelude writes. -/
theorem loadFPGA_prelude (env : Env) (img : List Nat) (dbg : Bool) :
    loadFPGA env img dbg =
      (let s4 : St := { statReads := 1, portaReads := 0, dclkReads := 0,
                        ctrl := ctrl4 env, writes := preludeWrites env }
       let r := pollMode env mode_reset s4
       let pr := if r.1 then afterReset env img dbg r.2
                 else (Outcome.failure Phase.reset, r.2)
       { outcome := pr.1, warn := get_msel (read32m (env.stat 0)) != 0x0a,
         final := pr.2 }) := by
  rfl

theorem pollModeLoop_notfound (env : Env) (t : Nat) :
    ∀ (n : Nat) (s : St),
      (∀ i, i < n → get_state (read32m (env.stat (s.statReads + i))) ≠ t) →
      pollModeLoop env t n s = { s with statReads := s.statReads + n } := by
  intro n
  induction n with
  | zero => intro s _; rfl
  | succ m ih =>
    intro s h
    have h0 : ¬ get_state (readStat env s).1 = t := by
      simpa [readStat] using h 0 (Nat.succ_pos m)
    rw [pollModeLoop, if_neg h0]
    rw [ih (readStat env s).2 (fun i hi => by
      have := h (i + 1) (Nat.succ_lt_succ hi)
      simpa [readStat, Nat.add_assoc, Nat.add_comm 1 i] using this)]
    simp only [readStat, St.mk.injEq]
    refine ⟨by omega, trivial, trivial, trivial, trivial⟩

theorem pollModeLoop_frame (env : Env) (t : Nat) :
    ∀ (n : Nat) (s : St),
      ∃ k, k ≤ n ∧ pollModeLoop env t n s = { s with statReads := s.statReads + k } := by
  intro n
  induction n with
  | zero => intro s; exact ⟨0, Nat.le_refl 0, rfl⟩
  | succ m ih =>
    intro s
    rw [pollModeLoop]
    by_cases hc : get_state (read32m (env.stat s.statReads)) = t
    · refine ⟨1, Nat.succ_le_succ (Nat.zero_le m), ?_⟩
      rw [if_pos (by simpa [readStat] using hc)]
      rfl
    · rw [if_neg (by simpa [readStat] using hc)]
      obtain ⟨k, hk, heq⟩ := ih (readStat env s).2
      refine ⟨k + 1, Nat.succ_le_succ hk, ?_⟩
      rw [heq]
      simp [readStat, St.mk.injEq]
      omega

theorem pollMode_notfound (env : Env) (t : Nat) (s : St)
    (h : ∀ i, i < 1000 → get_state (read32m (env.stat (s.statReads + i))) ≠ t) :
    pollMode env t s =
      ((get_state (read32m (env.stat (s.statReads + 1000))) == t),
        { s with statReads := s.statReads + 1001 }) := by
  unfold pollMode
  rw [pollModeLoop_notfound env t 1000 s h]
  simp [readStat, St.mk.injEq]

theorem pollMode_frame (env : Env) (t : Nat) (s : St) :
    ∃ k, 1 ≤ k ∧ k ≤ 1001 ∧
      pollMode env t s =
        ((get_state (read32m (env.stat (s.statReads + k - 1))) == t),
          { s with statReads := s.statReads + k }) := by
  obtain ⟨j, hj, heq⟩ := pollModeLoop_frame env t 1000 s
  refine ⟨j + 1, Nat.succ_le_succ (Nat.zero_le j), Nat.succ_le_succ hj, ?_⟩
  unfold pollMode
  rw [heq]
  have hidx : s.statReads + (j + 1) - 1 = s.statReads + j := by omega
  simp [readStat, St.mk.injEq, hidx]
  omega

theorem mixed_ne0 (v : Nat)
    (h : v &&& (cd ||| ns) = ns ∨ v &&& (cd ||| ns) = cd) :
    ¬ (v &&& (cd ||| ns) = 0) := by
  rcases h with h | h <;> rw [h] <;> decide

theorem mixed_ne3 (v : Nat)
    (h : v &&& (cd ||| ns) = ns ∨ v &&& (cd ||| ns) = cd) :
    ¬ (v &&& (cd ||| ns) = cd ||| ns) := by
  rcases h with h | h <;> rw [h] <;> decide

theorem portaLoop_mixed (env : Env) :
    ∀ (n : Nat) (s : St), 1 ≤ n →
      (∀ i, i < n → portaVal env (s.portaReads + i) = ns ∨
        portaVal env (s.portaReads + i) = cd) →
      portaLoop env n s =
        (portaVal env (s.portaReads + n - 1),
          { s with portaReads := s.portaReads + n }, false) := by
  intro n
  induction n with
  | zero => intro s h0; omega
  | succ m ih =>
    intro s _ h
    have hx : (readPorta env s).1 &&& (cd ||| ns) = ns ∨
        (readPorta env s).1 &&& (cd ||| ns) = cd := by
      simpa [portaVal, readPorta] using h 0 (Nat.succ_pos m)
    cases m with
    | zero =>
      simp only [portaLoop]
      rw [if_neg (mixed_ne0 _ hx), if_neg (mixed_ne3 _ hx)]
      simp [readPorta, portaVal, St.mk.injEq]
    | succ j =>
      simp only [portaLoop]
      rw [if_neg (mixed_ne0 _ hx), if_neg (mixed_ne3 _ hx)]
      rw [ih (readPorta env s).2 (Nat.succ_le_succ (Nat.zero_le j)) (fun i hi => by
        have := h (i + 1) (Nat.succ_lt_succ hi)
        simpa [readPorta, Nat.add_assoc, Nat.add_comm 1 i] using this)]
      have hidx : s.portaReads + 1 + (j + 1) - 1 = s.portaReads + (j + 1 + 1) - 1 := by
        omega
      simp [readPorta, portaVal, St.mk.injEq, hidx]
      omega

theorem portaLoop_first0 (env : Env) :
    ∀ (k n : Nat) (s : St), k < n →
      (∀ i, i < k → portaVal env (s.portaReads + i) = ns ∨
        portaVal env (s.portaReads + i) = cd) →
      portaVal env (s.portaReads + k) = 0 →
      portaLoop env n s =
        (0, { s with portaReads := s.portaReads + k + 1 }, true) := by
  intro k
  induction k with
  | zero =>
    intro n s hn _ h0
    have hz : (readPorta env s).1 &&& (cd ||| ns) = 0 := by
      simpa [readPorta, portaVal] using h0
    cases n with
    | zero => omega
    | succ m =>
      cases m with
      | zero =>
        simp only [portaLoop]
        rw [if_pos hz, hz]
        simp [readPorta]
      | succ m2 =>
        simp only [portaLoop]
        rw [if_pos hz, hz]
        simp [readPorta]
  | succ j ih =>
    intro n s hn hmix h0
    have hx : (readPorta env s).1 &&& (cd ||| ns) = ns ∨
        (readPorta env s).1 &&& (cd ||| ns) = cd := by
      simpa [portaVal, readPorta] using hmix 0 (Nat.succ_pos j)
    cases n with
    | zero => omega
    | succ m =>
      cases m with
      | zero => omega
      | succ m2 =>
        simp only [portaLoop]
        rw [if_neg (mixed_ne0 _ hx), if_neg (mixed_ne3 _ hx)]
        rw [ih (m2 + 1) (readPorta env s).2 (by omega)
          (fun i hi => by
            have := hmix (i + 1) (Nat.succ_lt_succ hi)
            simpa [readPorta, Nat.add_assoc, Nat.add_comm 1 i] using this)
          (by simpa [readPorta, Nat.add_assoc, Nat.add_comm 1 j] using h0)]
        simp [readPorta, St.mk.injEq]
        omega

theorem portaLoop_first3 (env : Env) :
    ∀ (k n : Nat) (s : St), k < n →
      (∀ i, i < k → portaVal env (s.portaReads + i) = ns ∨
        portaVal env (s.portaReads + i) = cd) →
      portaVal env (s.portaReads + k) = (cd ||| ns) →
      portaLoop env n s =
        (cd ||| ns, { s with portaReads := s.portaReads + k + 1 }, false) := by
  intro k
  induction k with
  | zero =>
    intro n s hn _ h3
    have hz : (readPorta env s).1 &&& (cd ||| ns) = cd ||| ns := by
      simpa [readPorta, portaVal] using h3
    have hne0 : ¬ ((readPorta env s).1 &&& (cd ||| ns) = 0) := by
      rw [hz]; decide
    cases n with
    | zero => omega
    | succ m =>
      cases m with
      | zero =>
        simp only [portaLoop]
        rw [if_neg hne0, if_pos hz, hz]
        simp [readPorta]
      | succ m2 =>
        simp only [portaLoop]
        rw [if_neg hne0, if_pos hz, hz]
        simp [readPorta]
  | succ j ih =>
    intro n s hn hmix h3
    have hx : (readPorta env s).1 &&& (cd ||| ns) = ns ∨
        (readPorta env s).1 &&& (cd ||| ns) = cd := by
      simpa [portaVal, readPorta] using hmix 0 (Nat.succ_pos j)
    cases n with
    | zero => omega
    | succ m =>
      cases m with
      | zero => omega
      | succ m2 =>
        simp only [portaLoop]
        rw [if_neg (mixed_ne0 _ hx), if_neg (mixed_ne3 _ hx)]
        rw [ih (m2 + 1) (readPorta env s).2 (by omega)
          (fun i hi => by
            have := hmix (i + 1) (Nat.succ_lt_succ hi)
            simpa [readPorta, Nat.add_assoc, Nat.add_comm 1 i] using this)
          (by simpa [readPorta, Nat.add_assoc, Nat.add_comm 1 j] using h3)]
        simp [readPorta, St.mk.injEq]
        omega

theorem portaLoop_frame (env : Env) :
    ∀ (n : Nat) (s : St), 1 ≤ n →
      ∃ k, 1 ≤ k ∧ k ≤ n ∧
        (portaLoop env n s).2.1 = { s with portaReads := s.portaReads + k } := by
  intro n
  induction n with
  | zero => intro s h0; omega
  | succ m ih =>
    intro s _
    cases m with
    | zero =>
      refine ⟨1, Nat.le_refl 1, Nat.le_refl 1, ?_⟩
      simp only [portaLoop]
      by_cases hc0 : (readPorta env s).1 &&& (cd ||| ns) = 0
      · rw [if_pos hc0]; simp [readPorta]
      · rw [if_neg hc0]
        by_cases hc3 : (readPorta env s).1 &&& (cd ||| ns) = cd ||| ns
        · rw [if_pos hc3]; simp [readPorta]
        · rw [if_neg hc3]; simp [readPorta]
    | succ m2 =>
      simp only [portaLoop]
      by_cases hc0 : (readPorta env s).1 &&& (cd ||| ns) = 0
      · rw [if_pos hc0]
        exact ⟨1, Nat.le_refl 1, by omega, by simp [readPorta]⟩
      · rw [if_neg hc0]
        by_cases hc3 : (readPorta env s).1 &&& (cd ||| ns) = cd ||| ns
        · rw [if_pos hc3]
          exact ⟨1, Nat.le_refl 1, by omega, by simp [readPorta]⟩
        · rw [if_neg hc3]
          obtain ⟨k, hk1, hk2, heq⟩ :=
            ih (readPorta env s).2 (Nat.succ_le_succ (Nat.zero_le m2))
          refine ⟨k + 1, by omega, by omega, ?_⟩
          rw [heq]
          simp [readPorta, St.mk.injEq]
          omega

theorem pollPorta_state (env : Env) (s : St) :
    (pollPorta env s).2 = (portaLoop env 1000 s).2.1 := by
  unfold pollPorta
  by_cases h : (portaLoop env 1000 s).2.2 <;> simp [h]

theorem pollPorta_mixed (env : Env) (s : St)
    (h : ∀ i, i < 1000 → portaVal env (s.portaReads + i) = ns ∨
      portaVal env (s.portaReads + i) = cd) :
    pollPorta env s = (false, { s with portaReads := s.portaReads + 1000 }) := by
  unfold pollPorta
  rw [portaLoop_mixed env 1000 s (by omega) h]
  rcases h 999 (by omega) with hx | hx <;> simp [hx] <;> decide

theorem pollPorta_first0 (env : Env) (s : St) (k : Nat) (hk : k < 1000)
    (h : ∀ i, i < k → portaVal env (s.portaReads + i) = ns ∨
      portaVal env (s.portaReads + i) = cd)
    (h0 : portaVal env (s.portaReads + k) = 0) :
    pollPorta env s = (false, { s with portaReads := s.portaReads + k + 1 }) := by
  unfold pollPorta
  rw [portaLoop_first0 env k 1000 s hk h h0]
  simp

theorem pollPorta_first3 (env : Env) (s : St) (k : Nat) (hk : k < 1000)
    (h : ∀ i, i < k → portaVal env (s.portaReads + i) = ns ∨
      portaVal env (s.portaReads + i) = cd)
    (h3 : portaVal env (s.portaReads + k) = (cd ||| ns)) :
    pollPorta env s = (true, { s with portaReads := s.portaReads + k + 1 }) := by
  unfold pollPorta
  rw [portaLoop_first3 env k 1000 s hk h h3]
  simp [cd, ns]

theorem pollPorta_frame (env : Env) (s : St) :
    ∃ k, 1 ≤ k ∧ k ≤ 1000 ∧
      (pollPorta env s).2 = { s with portaReads := s.portaReads + k } := by
  obtain ⟨k, hk1, hk2, heq⟩ := portaLoop_frame env 1000 s (by omega)
  exact ⟨k, hk1, hk2, by rw [pollPorta_state, heq]⟩

theorem dclkLoop_notdone (env : Env) :
    ∀ (n : Nat) (s : St), 1 ≤ n →
      (∀ i, i < n → read32m (env.dclk (s.dclkReads + i)) &&& dcntdone ≠ dcntdone) →
      dclkLoop env n s =
        (read32m (env.dclk (s.dclkReads + n - 1)) &&& dcntdone,
          { s with dclkReads := s.dclkReads + n }) := by
  intro n
  induction n with
  | zero => intro s h0; omega
  | succ m ih =>
    intro s _ h
    have hx : ¬ ((readDclk env s).1 &&& dcntdone = dcntdone) := by
      simpa [readDclk] using h 0 (Nat.succ_pos m)
    cases m with
    | zero =>
      simp only [dclkLoop]
      rw [if_neg hx]
      simp [readDclk, St.mk.injEq]
    | succ j =>
      simp only [dclkLoop]
      rw [if_neg hx]
      rw [ih (readDclk env s).2 (Nat.succ_le_succ (Nat.zero_le j)) (fun i hi => by
        have := h (i + 1) (Nat.succ_lt_succ hi)
        simpa [readDclk, Nat.add_assoc, Nat.add_comm 1 i] using this)]
      have hidx : s.dclkReads + 1 + (j + 1) - 1 = s.dclkReads + (j + 1 + 1) - 1 := by
        omega
      simp [readDclk, St.mk.injEq, hidx]
      omega

theorem dclkLoop_found (env : Env) :
    ∀ (k n : Nat) (s : St), k < n →
      (∀ i, i < k → read32m (env.dclk (s.dclkReads + i)) &&& dcntdone ≠ dcntdone) →
      read32m (env.dclk (s.dclkReads + k)) &&& dcntdone = dcntdone →
      dclkLoop env n s =
        (dcntdone, { s with dclkReads := s.dclkReads + k + 1 }) := by
  intro k
  induction k with
  | zero =>
    intro n s hn _ hd
    have hz : (readDclk env s).1 &&& dcntdone = dcntdone := by
      simpa [readDclk] using hd
    cases n with
    | zero => omega
    | succ m =>
      cases m with
      | zero =>
        simp only [dclkLoop]
        rw [if_pos hz, hz]
        simp [readDclk]
      | succ m2 =>
        simp only [dclkLoop]
        rw [if_pos hz, hz]
        simp [readDclk]
  | succ j ih =>
    intro n s hn hmiss hd
    have hx : ¬ ((readDclk env s).1 &&& dcntdone = dcntdone) := by
      simpa [readDclk] using hmiss 0 (Nat.succ_pos j)
    cases n with
    | zero => omega
    | succ m =>
      cases m with
      | zero => omega
      | succ m2 =>
        simp only [dclkLoop]
        rw [if_neg hx]
        rw [ih (m2 + 1) (readDclk env s).2 (by omega)
          (fun i hi => by
            have := hmiss (i + 1) (Nat.succ_lt_succ hi)
            simpa [readDclk, Nat.add_assoc, Nat.add_comm 1 i] using this)
          (by simpa [readDclk, Nat.add_assoc, Nat.add_comm 1 j] using hd)]
        simp [readDclk, St.mk.injEq]
        omega

theorem dclkLoop_frame (env : Env) :
    ∀ (n : Nat) (s : St), 1 ≤ n →
      ∃ k, 1 ≤ k ∧ k ≤ n ∧
        (dclkLoop env n s).2 = { s with dclkReads := s.dclkReads + k } := by
  intro n
  induction n with
  | zero => intro s h0; omega
  | succ m ih =>
    intro s _
    cases m with
    | zero =>
      refine ⟨1, Nat.le_refl 1, Nat.le_refl 1, ?_⟩
      simp only [dclkLoop]
      by_cases hc : (readDclk env s).1 &&& dcntdone = dcntdone
      · rw [if_pos hc]; simp [readDclk]
      · rw [if_neg hc]; simp [readDclk]
    | succ m2 =>
      simp only [dclkLoop]
      by_cases hc : (readDclk env s).1 &&& dcntdone = dcntdone
      · rw [if_pos hc]
        exact ⟨1, Nat.le_refl 1, by omega, by simp [readDclk]⟩
      · rw [if_neg hc]
        obtain ⟨k, hk1, hk2, heq⟩ :=
          ih (readDclk env s).2 (Nat.succ_le_succ (Nat.zero_le m2))
        refine ⟨k + 1, by omega, by omega, ?_⟩
        rw [heq]
        simp [readDclk, St.mk.injEq]
        omega

theorem pollDclk_notdone (env : Env) (s : St)
    (h : ∀ i, i < 100 → read32m (env.dclk (s.dclkReads + i)) &&& dcntdone ≠ dcntdone) :
    pollDclk env s = (false, { s with dclkReads := s.dclkReads + 100 }) := by
  unfold pollDclk
  rw [dclkLoop_notdone env 100 s (by omega) h]
  have h99 := h 99 (by omega)
  simp only [Prod.mk.injEq]
  refine ⟨by simpa using h99, ?_⟩
  trivial

theorem pollDclk_found (env : Env) (s : St) (k : Nat) (hk : k < 100)
    (h : ∀ i, i < k → read32m (env.dclk (s.dclkReads + i)) &&& dcntdone ≠ dcntdone)
    (hd : read32m (env.dclk (s.dclkReads + k)) &&& dcntdone = dcntdone) :
    pollDclk env s = (true, { s with dclkReads := s.dclkReads + k + 1 }) := by
  unfold pollDclk
  rw [dclkLoop_found env k 100 s hk h hd]
  simp

theorem pollDclk_frame (env : Env) (s : St) :
    ∃ k, 1 ≤ k ∧ k ≤ 100 ∧
      (pollDclk env s).2 = { s with dclkReads := s.dclkReads + k } := by
  obtain ⟨k, hk1, hk2, heq⟩ := dclkLoop_frame env 100 s (by omega)
  exact ⟨k, hk1, hk2, by unfold pollDclk; rw [heq]⟩

theorem streamData_spec :
    ∀ (img : List Nat) (s : St),
      streamData img s =
        { s with writes := s.writes ++ img.map (fun w => (Reg.data, read32m w)) } := by
  intro img
  induction img with
  | nil => intro s; simp [streamData]
  | cons w t ih =>
    intro s
    show streamData t (wr Reg.data w s) = _
    rw [ih]
    simp [wr]

theorem read32m_lt (v : Nat) : read32m v < 4294967296 :=
  Nat.mod_lt _ (by norm_num)

theorem read32m_eq_of_lt {v : Nat} (h : v < 4294967296) : read32m v = v :=
  Nat.mod_eq_of_lt h

theorem land_lt {m : Nat} (x : Nat) (h : m < 4294967296) :
    x &&& m < 4294967296 :=
  lt_of_le_of_lt Nat.and_le_right h

theorem lor_lt {x y : Nat} (hx : x < 4294967296) (hy : y < 4294967296) :
    x ||| y < 4294967296 := by
  have h32 : (4294967296 : Nat) = 2 ^ 32 := by norm_num
  rw [h32] at hx hy ⊢
  exact Nat.or_lt_two_pow hx hy

theorem and_one_or_distrib (a b : Nat) :
    (a ||| b) &&& 1 = (a &&& 1) ||| (b &&& 1) := by
  rw [Nat.and_comm (a ||| b) 1, Nat.and_or_distrib_left, Nat.and_comm 1 a,
    Nat.and_comm 1 b]

theorem lor_one_bit0 (x : Nat) : (x ||| 1) &&& 1 = 1 := by
  rw [and_one_or_distrib, Nat.and_one_is_mod, Nat.and_one_is_mod]
  rcases Nat.mod_two_eq_zero_or_one x with h | h <;> rw [h] <;> decide

theorem lor_even_bit0 (x b : Nat) (hb : b &&& 1 = 0) :
    (x ||| b) &&& 1 = x &&& 1 := by
  rw [and_one_or_distrib, hb, Nat.or_zero]

theorem land_mask_bit0 (x m : Nat) (hm : m &&& 1 = 1) :
    (x &&& m) &&& 1 = x &&& 1 := by
  rw [Nat.and_assoc, hm]

theorem ctrl1_lt (env : Env) : ctrl1 env < 4294967296 := read32m_lt _

theorem ctrl2_lt (env : Env) : ctrl2 env < 4294967296 := read32m_lt _

theorem ctrl3_lt (env : Env) : ctrl3 env < 4294967296 := read32m_lt _

theorem ctrl4_lt (env : Env) : ctrl4 env < 4294967296 := read32m_lt _

theorem ctrl1_eq (env : Env) :
    ctrl1 env = 0x01 ||| (read32m env.ctrl0 &&& (cdratio ||| cfgwdth)) := by
  unfold ctrl1
  exact read32m_eq_of_lt (lor_lt (by norm_num) (land_lt _ (by decide)))

theorem ctrl2_eq (env : Env) : ctrl2 env = ctrl1 env &&& compl32 nce := by
  unfold ctrl2
  exact read32m_eq_of_lt (land_lt _ (by decide))

theorem ctrl3_eq (env : Env) : ctrl3 env = ctrl2 env ||| en := by
  unfold ctrl3
  exact read32m_eq_of_lt (lor_lt (ctrl2_lt env) (by decide))

theorem ctrl4_eq (env : Env) : ctrl4 env = ctrl3 env ||| nconfigpull := by
  unfold ctrl4
  exact read32m_eq_of_lt (lor_lt (ctrl3_lt env) (by decide))

theorem ctrl1_bit0 (env : Env) : ctrl1 env &&& 1 = 1 := by
  rw [ctrl1_eq, Nat.or_comm]
  exact lor_one_bit0 _

theorem ctrl2_bit0 (env : Env) : ctrl2 env &&& 1 = 1 := by
  rw [ctrl2_eq, land_mask_bit0 _ _ (by decide), ctrl1_bit0]

theorem ctrl3_bit0 (env : Env) : ctrl3 env &&& 1 = 1 := by
  rw [ctrl3_eq]
  exact lor_one_bit0 _

theorem ctrl4_bit0 (env : Env) : ctrl4 env &&& 1 = 1 := by
  rw [ctrl4_eq, lor_even_bit0 _ _ (by decide), ctrl3_bit0]

theorem dbgRead_spec (env : Env) (dbg : Bool) (s : St) :
    dbgRead env dbg s =
      { s with statReads := s.statReads + (if dbg then 1 else 0) } := by
  cases dbg <;> simp [dbgRead, readStat]

theorem pollMode_writes (env : Env) (t : Nat) (s : St) :
    (pollMode env t s).2.writes = s.writes := by
  obtain ⟨k, _, _, heq⟩ := pollMode_frame env t s
  rw [heq]

theorem pollMode_ctrl (env : Env) (t : Nat) (s : St) :
    (pollMode env t s).2.ctrl = s.ctrl := by
  obtain ⟨k, _, _, heq⟩ := pollMode_frame env t s
  rw [heq]

theorem pollMode_portaReads (env : Env) (t : Nat) (s : St) :
    (pollMode env t s).2.portaReads = s.portaReads := by
  obtain ⟨k, _, _, heq⟩ := pollMode_frame env t s
  rw [heq]

theorem pollMode_dclkReads (env : Env) (t : Nat) (s : St) :
    (pollMode env t s).2.dclkReads = s.dclkReads := by
  obtain ⟨k, _, _, heq⟩ := pollMode_frame env t s
  rw [heq]

theorem pollMode_statReads_ge (env : Env) (t : Nat) (s : St) :
    s.statReads ≤ (pollMode env t s).2.statReads := by
  obtain ⟨k, _, _, heq⟩ := pollMode_frame env t s
  rw [heq]
  exact Nat.le_add_right _ _

theorem pollPorta_writes (env : Env) (s : St) :
    (pollPorta env s).2.writes = s.writes := by
  obtain ⟨k, _, _, heq⟩ := pollPorta_frame env s
  rw [heq]

theorem pollPorta_ctrl (env : Env) (s : St) :
    (pollPorta env s).2.ctrl = s.ctrl := by
  obtain ⟨k, _, _, heq⟩ := pollPorta_frame env s
  rw [heq]

theorem pollPorta_statReads (env : Env) (s : St) :
    (pollPorta env s).2.statReads = s.statReads := by
  obtain ⟨k, _, _, heq⟩ := pollPorta_frame env s
  rw [heq]

theorem pollPorta_dclkReads (env : Env) (s : St) :
    (pollPorta env s).2.dclkReads = s.dclkReads := by
  obtain ⟨k, _, _, heq⟩ := pollPorta_frame env s
  rw [heq]

theorem pollPorta_portaReads_ge (env : Env) (s : St) :
    s.portaReads + 1 ≤ (pollPorta env s).2.portaReads := by
  obtain ⟨k, hk1, _, heq⟩ := pollPorta_frame env s
  rw [heq]
  simp only []
  show s.portaReads + 1 ≤ s.portaReads + k
  omega

theorem pollDclk_writes (env : Env) (s : St) :
    (pollDclk env s).2.writes = s.writes := by
  obtain ⟨k, _, _, heq⟩ := pollDclk_frame env s
  rw [heq]

theorem pollDclk_ctrl (env : Env) (s : St) :
    (pollDclk env s).2.ctrl = s.ctrl := by
  obtain ⟨k, _, _, heq⟩ := pollDclk_frame env s
  rw [heq]

theorem pollDclk_portaReads (env : Env) (s : St) :
    (pollDclk env s).2.portaReads = s.portaReads := by
  obtain ⟨k, _, _, heq⟩ := pollDclk_frame env s
  rw [heq]

theorem pollDclk_statReads (env : Env) (s : St) :
    (pollDclk env s).2.statReads = s.statReads := by
  obtain ⟨k, _, _, heq⟩ := pollDclk_frame env s
  rw [heq]

theorem streamData_ctrl (img : List Nat) (s : St) :
    (streamData img s).ctrl = s.ctrl := by
  rw [streamData_spec]

theorem streamData_portaReads (img : List Nat) (s : St) :
    (streamData img s).portaReads = s.portaReads := by
  rw [streamData_spec]

theorem streamData_statReads (img : List Nat) (s : St) :
    (streamData img s).statReads = s.statReads := by
  rw [streamData_spec]

theorem streamData_dclkReads (img : List Nat) (s : St) :
    (streamData img s).dclkReads = s.dclkReads := by
  rw [streamData_spec]

theorem streamData_writes (img : List Nat) (s : St) :
    (streamData img s).writes =
      s.writes ++ img.map (fun w => (Reg.data, read32m w)) := by
  rw [streamData_spec]

theorem dataWritesL_nil : dataWritesL [] = [] := rfl

theorem dataWritesL_append (a b : List (Reg × Nat)) :
    dataWritesL (a ++ b) = dataWritesL a ++ dataWritesL b := by
  simp [dataWritesL]

theorem dataWritesL_cons (r : Reg) (v : Nat) (l : List (Reg × Nat)) :
    dataWritesL ((r, v) :: l) =
      if r = Reg.data then v :: dataWritesL l else dataWritesL l := by
  by_cases h : r = Reg.data
  · subst h
    simp [dataWritesL]
  · have hb : (r == Reg.data) = false := by
      exact beq_eq_false_iff_ne.mpr h
    simp [dataWritesL, List.filter_cons, hb, h]

theorem dataWritesL_map_data (img : List Nat) :
    dataWritesL (img.map (fun w => (Reg.data, read32m w))) = img.map read32m := by
  induction img with
  | nil => rfl
  | cons w t ih => simp [dataWritesL_cons, ih]

theorem pollMode_pair (env : Env) (t : Nat) (s : St) :
    ∃ b k, pollMode env t s = (b, { s with statReads := s.statReads + k }) := by
  obtain ⟨k, _, _, heq⟩ := pollMode_frame env t s
  exact ⟨_, k, heq⟩

theorem pollPorta_pair (env : Env) (s : St) :
    ∃ b k, 1 ≤ k ∧
      pollPorta env s = (b, { s with portaReads := s.portaReads + k }) := by
  obtain ⟨k, hk1, _, heq⟩ := pollPorta_frame env s
  exact ⟨(pollPorta env s).1, k, hk1, by rw [← heq]⟩

theorem pollDclk_pair (env : Env) (s : St) :
    ∃ b k, pollDclk env s = (b, { s with dclkReads := s.dclkReads + k }) := by
  obtain ⟨k, _, _, heq⟩ := pollDclk_frame env s
  exact ⟨(pollDclk env s).1, k, by rw [← heq]⟩

theorem afterDclk_dataW (env : Env) (dbg : Bool) (s : St) :
    dataWritesL (afterDclk env dbg s).2.writes = dataWritesL s.writes := by
  simp only [afterDclk]
  obtain ⟨b, k, heq⟩ := pollMode_pair env mode_user (wr Reg.dclkstat 1 s)
  rw [heq]
  cases b
  · simp [wr, dataWritesL_append, dataWritesL_cons, dataWritesL_nil]
  · simp [wr, wrCtrl, dbgRead_spec, dataWritesL_append, dataWritesL_cons,
      dataWritesL_nil]

theorem afterDclk_prefixW (env : Env) (dbg : Bool) (s : St) :
    ∃ l, (afterDclk env dbg s).2.writes = s.writes ++ l := by
  simp only [afterDclk]
  obtain ⟨b, k, heq⟩ := pollMode_pair env mode_user (wr Reg.dclkstat 1 s)
  rw [heq]
  cases b
  · exact ⟨[(Reg.dclkstat, read32m 1)], by simp [wr]⟩
  · exact ⟨[(Reg.dclkstat, read32m 1),
      (Reg.ctrl, read32m (s.ctrl &&& compl32 en))],
      by simp [wr, wrCtrl, dbgRead_spec]⟩

theorem afterDclk_portaReads (env : Env) (dbg : Bool) (s : St) :
    (afterDclk env dbg s).2.portaReads = s.portaReads := by
  simp only [afterDclk]
  obtain ⟨b, k, heq⟩ := pollMode_pair env mode_user (wr Reg.dclkstat 1 s)
  rw [heq]
  cases b
  · simp [wr]
  · simp [wr, wrCtrl, dbgRead_spec]

/-- The final success write of loadFPGA: clearing the enable bit appends a
control register write whose value has bit 0 clear, as the very last
element of the trace. -/
theorem clearEn_last (env : Env) (dbg : Bool) (u : St) :
    ∃ v, (wrCtrl ((dbgRead env dbg u).ctrl &&& compl32 en)
        (dbgRead env dbg u)).writes.getLast? = some (Reg.ctrl, v) ∧
        v &&& 1 = 0 := by
  refine ⟨read32m ((dbgRead env dbg u).ctrl &&& compl32 en), ?_, ?_⟩
  · simp only [wrCtrl]
    exact List.getLast?_concat _
  · rw [read32m_eq_of_lt (land_lt _ (by decide))]
    rw [Nat.and_assoc]
    have hc : compl32 en &&& 1 = 0 := by decide
    rw [hc, Nat.and_zero]

theorem afterDclk_c7 (env : Env) (dbg : Bool) (s : St)
    (hbit : s.ctrl &&& 1 = 1) :
    ((afterDclk env dbg s).1 = Outcome.success →
      ∃ v, (afterDclk env dbg s).2.writes.getLast? = some (Reg.ctrl, v) ∧
        v &&& 1 = 0) ∧
    (∀ p, (afterDclk env dbg s).1 = Outcome.failure p →
      (afterDclk env dbg s).2.ctrl &&& 1 = 1) := by
  simp only [afterDclk]
  obtain ⟨b, k, heq⟩ := pollMode_pair env mode_user (wr Reg.dclkstat 1 s)
  rw [heq]
  cases b
  · constructor
    · intro hok
      simp at hok
    · intro p _
      simpa [wr] using hbit
  · constructor
    · intro _
      simpa using clearEn_last env dbg
        { wr Reg.dclkstat 1 s with
            statReads := (wr Reg.dclkstat 1 s).statReads + k }
    · intro p hp
      simp at hp

theorem afterDataPre_ctrl (env : Env) (dbg : Bool) (s : St) :
    (afterDataPre env dbg s).ctrl = read32m (s.ctrl &&& compl32 axicfgen) := by
  by_cases hv : read32m (env.dclk s.dclkReads) = 0 <;>
    simp [afterDataPre, hv, wr, wrCtrl, readDclk, dbgRead_spec]

theorem afterDataPre_dataW (env : Env) (dbg : Bool) (s : St) :
    dataWritesL (afterDataPre env dbg s).writes = dataWritesL s.writes := by
  by_cases hv : read32m (env.dclk s.dclkReads) = 0 <;>
    simp [afterDataPre, hv, wr, wrCtrl, readDclk, dbgRead_spec,
      dataWritesL_append, dataWritesL_cons, dataWritesL_nil]

theorem afterDataPre_prefixW (env : Env) (dbg : Bool) (s : St) :
    ∃ l, (afterDataPre env dbg s).writes = s.writes ++ l := by
  by_cases hv : read32m (env.dclk s.dclkReads) = 0
  · exact ⟨[(Reg.ctrl, read32m (s.ctrl &&& compl32 axicfgen)),
      (Reg.dclkcnt, read32m 4)],
      by simp [afterDataPre, hv, wr, wrCtrl, readDclk, dbgRead_spec]⟩
  · exact ⟨[(Reg.ctrl, read32m (s.ctrl &&& compl32 axicfgen)),
      (Reg.dclkstat, read32m 1), (Reg.dclkcnt, read32m 4)],
      by simp [afterDataPre, hv, wr, wrCtrl, readDclk, dbgRead_spec]⟩

theorem afterDataPre_portaReads (env : Env) (dbg : Bool) (s : St) :
    (afterDataPre env dbg s).portaReads = s.portaReads := by
  by_cases hv : read32m (env.dclk s.dclkReads) = 0 <;>
    simp [afterDataPre, hv, wr, wrCtrl, readDclk, dbgRead_spec]

theorem afterDataPre_bit0 (env : Env) (dbg : Bool) (s : St)
    (hbit : s.ctrl &&& 1 = 1) : (afterDataPre env dbg s).ctrl &&& 1 = 1 := by
  rw [afterDataPre_ctrl, read32m_eq_of_lt (land_lt _ (by decide)),
    land_mask_bit0 _ _ (by decide), hbit]

theorem afterData_dataW (env : Env) (dbg : Bool) (s : St) :
    dataWritesL (afterData env dbg s).2.writes = dataWritesL s.writes := by
  simp only [afterData]
  obtain ⟨b, k, heq⟩ := pollDclk_pair env (afterDataPre env dbg s)
  rw [heq]
  cases b
  · simpa using afterDataPre_dataW env dbg s
  · rw [if_pos rfl]
    rw [afterDclk_dataW]
    simpa using afterDataPre_dataW env dbg s

theorem afterData_prefixW (env : Env) (dbg : Bool) (s : St) :
    ∃ l, (afterData env dbg s).2.writes = s.writes ++ l := by
  simp only [afterData]
  obtain ⟨b, k, heq⟩ := pollDclk_pair env (afterDataPre env dbg s)
  rw [heq]
  obtain ⟨l1, hl1⟩ := afterDataPre_prefixW env dbg s
  cases b
  · exact ⟨l1, by simpa using hl1⟩
  · rw [if_pos rfl]
    obtain ⟨l2, hl2⟩ := afterDclk_prefixW env dbg
      { afterDataPre env dbg s with
          dclkReads := (afterDataPre env dbg s).dclkReads + k }
    refine ⟨l1 ++ l2, ?_⟩
    rw [hl2]
    simp [hl1]

theorem afterData_portaReads (env : Env) (dbg : Bool) (s : St) :
    (afterData env dbg s).2.portaReads = s.portaReads := by
  simp only [afterData]
  obtain ⟨b, k, heq⟩ := pollDclk_pair env (afterDataPre env dbg s)
  rw [heq]
  cases b
  · simpa using afterDataPre_portaReads env dbg s
  · rw [if_pos rfl]
    rw [afterDclk_portaReads]
    simpa using afterDataPre_portaReads env dbg s

theorem afterData_c7 (env : Env) (dbg : Bool) (s : St)
    (hbit : s.ctrl &&& 1 = 1) :
    ((afterData env dbg s).1 = Outcome.success →
      ∃ v, (afterData env dbg s).2.writes.getLast? = some (Reg.ctrl, v) ∧
        v &&& 1 = 0) ∧
    (∀ p, (afterData env dbg s).1 = Outcome.failure p →
      (afterData env dbg s).2.ctrl &&& 1 = 1) := by
  have hpre := afterDataPre_bit0 env dbg s hbit
  simp only [afterData]
  obtain ⟨b, k, heq⟩ := pollDclk_pair env (afterDataPre env dbg s)
  rw [heq]
  cases b
  · constructor
    · intro hok
      simp at hok
    · intro p _
      simpa using hpre
  · rw [if_pos rfl]
    exact afterDclk_c7 env dbg _ (by simpa using hpre)

theorem afterConfigPre_ctrl (env : Env) (img : List Nat) (dbg : Bool) (s : St) :
    (afterConfigPre env img dbg s).ctrl = read32m (s.ctrl ||| axicfgen) := by
  simp [afterConfigPre, streamData_ctrl, wr, wrCtrl, dbgRead_spec]

theorem afterConfigPre_writes (env : Env) (img : List Nat) (dbg : Bool)
    (s : St) :
    (afterConfigPre env img dbg s).writes =
      s.writes ++ [(Reg.eoi, read32m 0x00000fff),
        (Reg.ctrl, read32m (s.ctrl ||| axicfgen))] ++
        img.map (fun w => (Reg.data, read32m w)) := by
  simp [afterConfigPre, streamData_writes, wr, wrCtrl, dbgRead_spec]

theorem afterConfigPre_dataW (env : Env) (img : List Nat) (dbg : Bool)
    (s : St) :
    dataWritesL (afterConfigPre env img dbg s).writes =
      dataWritesL s.writes ++ img.map read32m := by
  rw [afterConfigPre_writes]
  simp [dataWritesL_append, dataWritesL_cons, dataWritesL_nil,
    dataWritesL_map_data]

theorem afterConfigPre_portaReads (env : Env) (img : List Nat) (dbg : Bool)
    (s : St) :
    (afterConfigPre env img dbg s).portaReads = s.portaReads := by
  simp [afterConfigPre, streamData_portaReads, wr, wrCtrl, dbgRead_spec]

theorem afterConfigPre_bit0 (env : Env) (img : List Nat) (dbg : Bool) (s : St)
    (hlt : s.ctrl < 4294967296) (hbit : s.ctrl &&& 1 = 1) :
    (afterConfigPre env img dbg s).ctrl &&& 1 = 1 := by
  rw [afterConfigPre_ctrl, read32m_eq_of_lt (lor_lt hlt (by decide)),
    lor_even_bit0 _ _ (by decide), hbit]

theorem afterConfig_dataW (env : Env) (img : List Nat) (dbg : Bool) (s : St) :
    dataWritesL (afterConfig env img dbg s).2.writes =
      dataWritesL s.writes ++ img.map read32m := by
  simp only [afterConfig]
  obtain ⟨b, k, hk1, heq⟩ := pollPorta_pair env (afterConfigPre env img dbg s)
  rw [heq]
  cases b
  · simpa using afterConfigPre_dataW env img dbg s
  · rw [if_pos rfl]
    rw [afterData_dataW]
    simpa using afterConfigPre_dataW env img dbg s

theorem afterConfig_prefixW (env : Env) (img : List Nat) (dbg : Bool)
    (s : St) :
    ∃ l, (afterConfig env img dbg s).2.writes = s.writes ++ l := by
  simp only [afterConfig]
  obtain ⟨b, k, hk1, heq⟩ := pollPorta_pair env (afterConfigPre env img dbg s)
  rw [heq]
  have hw := afterConfigPre_writes env img dbg s
  cases b
  · refine ⟨[(Reg.eoi, read32m 0x00000fff),
      (Reg.ctrl, read32m (s.ctrl ||| axicfgen))] ++
      img.map (fun w => (Reg.data, read32m w)), ?_⟩
    simpa [List.append_assoc] using hw
  · rw [if_pos rfl]
    obtain ⟨l2, hl2⟩ := afterData_prefixW env dbg
      { afterConfigPre env img dbg s with
          portaReads := (afterConfigPre env img dbg s).portaReads + k }
    refine ⟨([(Reg.eoi, read32m 0x00000fff),
      (Reg.ctrl, read32m (s.ctrl ||| axicfgen))] ++
      img.map (fun w => (Reg.data, read32m w))) ++ l2, ?_⟩
    rw [hl2]
    simp only []
    rw [hw]
    simp [List.append_assoc]

theorem afterConfig_portaReads_ge (env : Env) (img : List Nat) (dbg : Bool)
    (s : St) :
    s.portaReads + 1 ≤ (afterConfig env img dbg s).2.portaReads := by
  simp only [afterConfig]
  obtain ⟨b, k, hk1, heq⟩ := pollPorta_pair env (afterConfigPre env img dbg s)
  rw [heq]
  have hp := afterConfigPre_portaReads env img dbg s
  cases b
  · simp only []
    show s.portaReads + 1 ≤ (afterConfigPre env img dbg s).portaReads + k
    omega
  · rw [if_pos rfl]
    rw [afterData_portaReads]
    show s.portaReads + 1 ≤ (afterConfigPre env img dbg s).portaReads + k
    omega

theorem afterConfig_c7 (env : Env) (img : List Nat) (dbg : Bool) (s : St)
    (hlt : s.ctrl < 4294967296) (hbit : s.ctrl &&& 1 = 1) :
    ((afterConfig env img dbg s).1 = Outcome.success →
      ∃ v, (afterConfig env img dbg s).2.writes.getLast? = some (Reg.ctrl, v) ∧
        v &&& 1 = 0) ∧
    (∀ p, (afterConfig env img dbg s).1 = Outcome.failure p →
      (afterConfig env img dbg s).2.ctrl &&& 1 = 1) := by
  have hpre := afterConfigPre_bit0 env img dbg s hlt hbit
  simp only [afterConfig]
  obtain ⟨b, k, hk1, heq⟩ := pollPorta_pair env (afterConfigPre env img dbg s)
  rw [heq]
  cases b
  · constructor
    · intro hok
      simp at hok
    · intro p _
      simpa using hpre
  · rw [if_pos rfl]
    exact afterData_c7 env dbg _ (by simpa using hpre)

theorem afterResetPre_ctrl (env : Env) (dbg : Bool) (s : St) :
    (afterResetPre env dbg s).ctrl =
      read32m (s.ctrl &&& compl32 nconfigpull) := by
  simp [afterResetPre, wrCtrl, dbgRead_spec]

theorem afterResetPre_writes (env : Env) (dbg : Bool) (s : St) :
    (afterResetPre env dbg s).writes =
      s.writes ++ [(Reg.ctrl, read32m (s.ctrl &&& compl32 nconfigpull))] := by
  simp [afterResetPre, wrCtrl, dbgRead_spec]

theorem afterResetPre_dataW (env : Env) (dbg : Bool) (s : St) :
    dataWritesL (afterResetPre env dbg s).writes = dataWritesL s.writes := by
  rw [afterResetPre_writes]
  simp [dataWritesL_append, dataWritesL_cons, dataWritesL_nil]

theorem afterResetPre_portaReads (env : Env) (dbg : Bool) (s : St) :
    (afterResetPre env dbg s).portaReads = s.portaReads := by
  simp [afterResetPre, wrCtrl, dbgRead_spec]

theorem afterResetPre_bit0 (env : Env) (dbg : Bool) (s : St)
    (hbit : s.ctrl &&& 1 = 1) : (afterResetPre env dbg s).ctrl &&& 1 = 1 := by
  rw [afterResetPre_ctrl, read32m_eq_of_lt (land_lt _ (by decide)),
    land_mask_bit0 _ _ (by decide), hbit]

theorem afterReset_dataW (env : Env) (img : List Nat) (dbg : Bool) (s : St)
    (h : (afterReset env img dbg s).1 ≠ Outcome.failure Phase.config) :
    dataWritesL (afterReset env img dbg s).2.writes =
      dataWritesL s.writes ++ img.map read32m := by
  revert h
  simp only [afterReset]
  obtain ⟨b, k, heq⟩ := pollMode_pair env mode_config (afterResetPre env dbg s)
  rw [heq]
  cases b
  · intro h
    simp at h
  · intro _
    rw [if_pos rfl]
    rw [afterConfig_dataW]
    simpa using afterResetPre_dataW env dbg s

theorem afterReset_prefixW (env : Env) (img : List Nat) (dbg : Bool) (s : St) :
    ∃ l, (afterReset env img dbg s).2.writes = s.writes ++ l := by
  simp only [afterReset]
  obtain ⟨b, k, heq⟩ := pollMode_pair env mode_config (afterResetPre env dbg s)
  rw [heq]
  have hw := afterResetPre_writes env dbg s
  cases b
  · exact ⟨[(Reg.ctrl, read32m (s.ctrl &&& compl32 nconfigpull))],
      by simpa using hw⟩
  · rw [if_pos rfl]
    obtain ⟨l2, hl2⟩ := afterConfig_prefixW env img dbg
      { afterResetPre env dbg s with
          statReads := (afterResetPre env dbg s).statReads + k }
    refine ⟨[(Reg.ctrl, read32m (s.ctrl &&& compl32 nconfigpull))] ++ l2, ?_⟩
    rw [hl2]
    simp only []
    rw [hw]
    simp [List.append_assoc]

theorem afterReset_portaReads_ge (env : Env) (img : List Nat) (dbg : Bool)
    (s : St)
    (h : (afterReset env img dbg s).1 ≠ Outcome.failure Phase.config) :
    s.portaReads + 1 ≤ (afterReset env img dbg s).2.portaReads := by
  revert h
  simp only [afterReset]
  obtain ⟨b, k, heq⟩ := pollMode_pair env mode_config (afterResetPre env dbg s)
  rw [heq]
  cases b
  · intro h
    simp at h
  · intro _
    rw [if_pos rfl]
    have hge := afterConfig_portaReads_ge env img dbg
      { afterResetPre env dbg s with
          statReads := (afterResetPre env dbg s).statReads + k }
    have hp := afterResetPre_portaReads env dbg s
    simp at hge ⊢
    omega

theorem afterReset_c7 (env : Env) (img : List Nat) (dbg : Bool) (s : St)
    (hbit : s.ctrl &&& 1 = 1) :
    ((afterReset env img dbg s).1 = Outcome.success →
      ∃ v, (afterReset env img dbg s).2.writes.getLast? = some (Reg.ctrl, v) ∧
        v &&& 1 = 0) ∧
    (∀ p, (afterReset env img dbg s).1 = Outcome.failure p →
      (afterReset env img dbg s).2.ctrl &&& 1 = 1) := by
  have hpre := afterResetPre_bit0 env dbg s hbit
  have hplt : (afterResetPre env dbg s).ctrl < 4294967296 := by
    rw [afterResetPre_ctrl]
    exact read32m_lt _
  simp only [afterReset]
  obtain ⟨b, k, heq⟩ := pollMode_pair env mode_config (afterResetPre env dbg s)
  rw [heq]
  cases b
  · constructor
    · intro hok
      simp at hok
    · intro p _
      simpa using hpre
  · rw [if_pos rfl]
    exact afterConfig_c7 env img dbg _ (by simpa using hplt)
      (by simpa using hpre)

theorem pollModeLoop_congr (env1 env2 : Env) (t : Nat) :
    ∀ (n : Nat) (s : St),
      (∀ i, s.statReads ≤ i → env1.stat i = env2.stat i) →
      pollModeLoop env1 t n s = pollModeLoop env2 t n s := by
  intro n
  induction n with
  | zero => intro s _; rfl
  | succ m ih =>
    intro s h
    simp only [pollModeLoop, readStat]
    rw [h s.statReads (Nat.le_refl _)]
    by_cases hc : get_state (read32m (env2.stat s.statReads)) = t
    · rw [if_pos hc, if_pos hc]
    · rw [if_neg hc, if_neg hc]
      exact ih _ (fun i hi => h i (Nat.le_of_succ_le hi))

theorem pollMode_congr (env1 env2 : Env) (t : Nat) (s : St)
    (h : ∀ i, s.statReads ≤ i → env1.stat i = env2.stat i) :
    pollMode env1 t s = pollMode env2 t s := by
  unfold pollMode
  rw [pollModeLoop_congr env1 env2 t 1000 s h]
  obtain ⟨k, _, heq⟩ := pollModeLoop_frame env2 t 1000 s
  rw [heq]
  simp only [readStat]
  rw [h (s.statReads + k) (Nat.le_add_right _ _)]

theorem readPorta_congr (env1 env2 : Env) (hp : env1.porta = env2.porta)
    (s : St) : readPorta env1 s = readPorta env2 s := by
  simp [readPorta, hp]

theorem portaLoop_congr (env1 env2 : Env) (hp : env1.porta = env2.porta) :
    ∀ (n : Nat) (s : St), portaLoop env1 n s = portaLoop env2 n s := by
  intro n
  induction n with
  | zero => intro s; rfl
  | succ m ih =>
    intro s
    cases m with
    | zero =>
      simp only [portaLoop, readPorta, hp]
    | succ m2 =>
      simp only [portaLoop, readPorta, hp]
      by_cases hc0 : read32m (env2.porta s.portaReads) &&& (cd ||| ns) = 0
      · rw [if_pos hc0, if_pos hc0]
      · rw [if_neg hc0, if_neg hc0]
        by_cases hc3 : read32m (env2.porta s.portaReads) &&& (cd ||| ns) =
            cd ||| ns
        · rw [if_pos hc3, if_pos hc3]
        · rw [if_neg hc3, if_neg hc3]
          exact ih _

theorem pollPorta_congr (env1 env2 : Env) (hp : env1.porta = env2.porta)
    (s : St) : pollPorta env1 s = pollPorta env2 s := by
  unfold pollPorta
  rw [portaLoop_congr env1 env2 hp 1000 s]

theorem dclkLoop_congr (env1 env2 : Env) (hd : env1.dclk = env2.dclk) :
    ∀ (n : Nat) (s : St), dclkLoop env1 n s = dclkLoop env2 n s := by
  intro n
  induction n with
  | zero => intro s; rfl
  | succ m ih =>
    intro s
    cases m with
    | zero =>
      simp only [dclkLoop, readDclk, hd]
    | succ m2 =>
      simp only [dclkLoop, readDclk, hd]
      by_cases hc : read32m (env2.dclk s.dclkReads) &&& dcntdone = dcntdone
      · rw [if_pos hc, if_pos hc]
      · rw [if_neg hc, if_neg hc]
        exact ih _

theorem pollDclk_congr (env1 env2 : Env) (hd : env1.dclk = env2.dclk)
    (s : St) : pollDclk env1 s = pollDclk env2 s := by
  unfold pollDclk
  rw [dclkLoop_congr env1 env2 hd 100 s]

theorem afterResetPre_statReads (env : Env) (dbg : Bool) (s : St) :
    (afterResetPre env dbg s).statReads =
      s.statReads + (if dbg then 1 else 0) := by
  simp [afterResetPre, wrCtrl, dbgRead_spec]

theorem afterConfigPre_statReads (env : Env) (img : List Nat) (dbg : Bool)
    (s : St) :
    (afterConfigPre env img dbg s).statReads =
      s.statReads + (if dbg then 1 else 0) := by
  simp [afterConfigPre, streamData_statReads, wr, wrCtrl, dbgRead_spec]

theorem afterDataPre_statReads (env : Env) (dbg : Bool) (s : St) :
    (afterDataPre env dbg s).statReads =
      s.statReads + (if dbg then 1 else 0) := by
  by_cases hv : read32m (env.dclk s.dclkReads) = 0 <;>
    simp [afterDataPre, hv, wr, wrCtrl, readDclk, dbgRead_spec]

theorem afterResetPre_congr (env1 env2 : Env) (dbg : Bool) (s : St) :
    afterResetPre env1 dbg s = afterResetPre env2 dbg s := by
  simp only [afterResetPre]
  rw [dbgRead_spec, dbgRead_spec]

theorem afterConfigPre_congr (env1 env2 : Env) (img : List Nat) (dbg : Bool)
    (s : St) :
    afterConfigPre env1 img dbg s = afterConfigPre env2 img dbg s := by
  simp only [afterConfigPre]
  rw [dbgRead_spec, dbgRead_spec]

theorem afterDataPre_congr (env1 env2 : Env) (dbg : Bool) (s : St)
    (hd : env1.dclk = env2.dclk) :
    afterDataPre env1 dbg s = afterDataPre env2 dbg s := by
  simp only [afterDataPre, readDclk]
  rw [hd, dbgRead_spec, dbgRead_spec]

theorem afterDclk_congr (env1 env2 : Env) (dbg : Bool) (s : St)
    (hstat : ∀ i, s.statReads ≤ i → env1.stat i = env2.stat i) :
    afterDclk env1 dbg s = afterDclk env2 dbg s := by
  simp only [afterDclk]
  rw [pollMode_congr env1 env2 mode_user (wr Reg.dclkstat 1 s) hstat]
  obtain ⟨b, k, heq⟩ := pollMode_pair env2 mode_user (wr Reg.dclkstat 1 s)
  rw [heq]
  cases b
  · rfl
  · rw [if_pos rfl, if_pos rfl, dbgRead_spec, dbgRead_spec]

theorem afterData_congr (env1 env2 : Env) (dbg : Bool) (s : St)
    (hstat : ∀ i, s.statReads ≤ i → env1.stat i = env2.stat i)
    (hd : env1.dclk = env2.dclk) :
    afterData env1 dbg s = afterData env2 dbg s := by
  simp only [afterData]
  rw [afterDataPre_congr env1 env2 dbg s hd,
    pollDclk_congr env1 env2 hd (afterDataPre env2 dbg s)]
  obtain ⟨b, k, heq⟩ := pollDclk_pair env2 (afterDataPre env2 dbg s)
  rw [heq]
  cases b
  · rfl
  · rw [if_pos rfl, if_pos rfl]
    apply afterDclk_congr
    intro i hi
    apply hstat
    have h1 := afterDataPre_statReads env2 dbg s
    have h2 : ({ afterDataPre env2 dbg s with
        dclkReads := (afterDataPre env2 dbg s).dclkReads + k }).statReads =
        (afterDataPre env2 dbg s).statReads := rfl
    rw [h2, h1] at hi
    omega

theorem afterConfig_congr (env1 env2 : Env) (img : List Nat) (dbg : Bool)
    (s : St)
    (hstat : ∀ i, s.statReads ≤ i → env1.stat i = env2.stat i)
    (hp : env1.porta = env2.porta) (hd : env1.dclk = env2.dclk) :
    afterConfig env1 img dbg s = afterConfig env2 img dbg s := by
  simp only [afterConfig]
  rw [afterConfigPre_congr env1 env2 img dbg s,
    pollPorta_congr env1 env2 hp (afterConfigPre env2 img dbg s)]
  obtain ⟨b, k, _, heq⟩ := pollPorta_pair env2 (afterConfigPre env2 img dbg s)
  rw [heq]
  cases b
  · rfl
  · rw [if_pos rfl, if_pos rfl]
    apply afterData_congr _ _ _ _ _ hd
    intro i hi
    apply hstat
    have h1 := afterConfigPre_statReads env2 img dbg s
    have h2 : ({ afterConfigPre env2 img dbg s with
        portaReads := (afterConfigPre env2 img dbg s).portaReads + k
          }).statReads =
        (afterConfigPre env2 img dbg s).statReads := rfl
    rw [h2, h1] at hi
    omega

theorem afterReset_congr (env1 env2 : Env) (img : List Nat) (dbg : Bool)
    (s : St)
    (hstat : ∀ i, s.statReads ≤ i → env1.stat i = env2.stat i)
    (hp : env1.porta = env2.porta) (hd : env1.dclk = env2.dclk) :
    afterReset env1 img dbg s = afterReset env2 img dbg s := by
  simp only [afterReset]
  have hsr : ∀ i, (afterResetPre env2 dbg s).statReads ≤ i →
      env1.stat i = env2.stat i := by
    intro i hi
    apply hstat
    rw [afterResetPre_statReads] at hi
    omega
  rw [afterResetPre_congr env1 env2 dbg s,
    pollMode_congr env1 env2 mode_config (afterResetPre env2 dbg s) hsr]
  obtain ⟨b, k, heq⟩ := pollMode_pair env2 mode_config (afterResetPre env2 dbg s)
  rw [heq]
  cases b
  · rfl
  · rw [if_pos rfl, if_pos rfl]
    apply afterConfig_congr _ _ _ _ _ _ hp hd
    intro i hi
    apply hsr
    have h2 : ({ afterResetPre env2 dbg s with
        statReads := (afterResetPre env2 dbg s).statReads + k }).statReads =
        (afterResetPre env2 dbg s).statReads + k := rfl
    rw [h2] at hi
    omega

theorem preludeWrites_dataW (env : Env) :
    dataWritesL (preludeWrites env) = [] := by
  simp [preludeWrites, dataWritesL_cons, dataWritesL_nil]

theorem afterDclk_not_config (env : Env) (dbg : Bool) (s : St) :
    (afterDclk env dbg s).1 ≠ Outcome.failure Phase.config := by
  simp only [afterDclk]
  obtain ⟨b, k, heq⟩ := pollMode_pair env mode_user (wr Reg.dclkstat 1 s)
  rw [heq]
  cases b <;> simp

theorem afterData_not_config (env : Env) (dbg : Bool) (s : St) :
    (afterData env dbg s).1 ≠ Outcome.failure Phase.config := by
  simp only [afterData]
  obtain ⟨b, k, heq⟩ := pollDclk_pair env (afterDataPre env dbg s)
  rw [heq]
  cases b
  · simp
  · rw [if_pos rfl]
    exact afterDclk_not_config env dbg _

theorem afterConfig_not_config (env : Env) (img : List Nat) (dbg : Bool)
    (s : St) :
    (afterConfig env img dbg s).1 ≠ Outcome.failure Phase.config := by
  simp only [afterConfig]
  obtain ⟨b, k, _, heq⟩ := pollPorta_pair env (afterConfigPre env img dbg s)
  rw [heq]
  cases b
  · simp
  · rw [if_pos rfl]
    exact afterData_not_config env dbg _

theorem afterReset_dataW_config (env : Env) (img : List Nat) (dbg : Bool)
    (s : St)
    (h : (afterReset env img dbg s).1 = Outcome.failure Phase.config) :
    dataWritesL (afterReset env img dbg s).2.writes = dataWritesL s.writes := by
  revert h
  simp only [afterReset]
  obtain ⟨b, k, heq⟩ := pollMode_pair env mode_config (afterResetPre env dbg s)
  rw [heq]
  cases b
  · intro _
    simpa using afterResetPre_dataW env dbg s
  · rw [if_pos rfl]
    intro h
    exact absurd h (afterConfig_not_config env img dbg _)

/-- Claim C8: the state-decoding function maps mode values 0, 1, 2, 3 and
4 to the labels Off, Reset, Configuration, Initialization and User
respectively, every other 3-bit mode value to the sentinel label
Undetermined, and only the low 3 bits of the status register value
participate in the decoding. -/
theorem c8_print_state_decode :
    print_state 0 = "Off" ∧ print_state 1 = "Reset" ∧
    print_state 2 = "Configuration" ∧ print_state 3 = "Initialization" ∧
    print_state 4 = "User" ∧ print_state 5 = "Undetermined" ∧
    print_state 6 = "Undetermined" ∧ print_state 7 = "Undetermined" ∧
    ∀ v : Nat, print_state v = print_state (v &&& 0x07) := by
  refine ⟨rfl, rfl, rfl, rfl, rfl, rfl, rfl, rfl, ?_⟩
  intro v
  have h77 : (7 : Nat) &&& 7 = 7 := by decide
  have h : get_state (v &&& 0x07) = get_state v := by
    unfold get_state
    rw [Nat.shiftRight_zero, Nat.shiftRight_zero, Nat.and_assoc]
    norm_num [h77]
  unfold print_state
  rw [h]

/-- Claim C2: for every well-formed (non-empty) image, a full run of
loadFPGA returns exactly one outcome: either success, or a failure tagged
with exactly one of the five phases, never both. -/
theorem c2_outcome_partition (env : Env) (img : List Nat) (dbg : Bool)
    (hne : img ≠ []) :
    ((loadFPGA env img dbg).outcome = Outcome.success ∧
      ∀ p, (loadFPGA env img dbg).outcome ≠ Outcome.failure p) ∨
    (∃ p, (loadFPGA env img dbg).outcome = Outcome.failure p ∧
      (loadFPGA env img dbg).outcome ≠ Outcome.success ∧
      ∀ q, (loadFPGA env img dbg).outcome = Outcome.failure q → q = p) := by
  cases ho : (loadFPGA env img dbg).outcome with
  | success =>
    exact Or.inl ⟨rfl, fun p h => Outcome.noConfusion h⟩
  | failure p =>
    refine Or.inr ⟨p, rfl, ?_, ?_⟩
    · intro h
      exact Outcome.noConfusion h
    · intro q hq
      cases hq
      rfl

theorem c2_outcome_partition_witness :
    ([0] ≠ ([] : List Nat)) ∧
    (((loadFPGA goodEnv [0] false).outcome = Outcome.success ∧
      ∀ p, (loadFPGA goodEnv [0] false).outcome ≠ Outcome.failure p) ∨
    (∃ p, (loadFPGA goodEnv [0] false).outcome = Outcome.failure p ∧
      (loadFPGA goodEnv [0] false).outcome ≠ Outcome.success ∧
      ∀ q, (loadFPGA goodEnv [0] false).outcome = Outcome.failure q → q = p)) :=
  ⟨by decide, c2_outcome_partition goodEnv [0] false (by decide)⟩

/-- Claim C1, amended: during the data-accept poll the sequencer samples
the port-A register masked to CONF_DONE and nSTATUS; if both bits read 1
the poll succeeds within that iteration; if both bits read 0 at a sampled
instant the poll fails hard within that iteration, without further
sampling; if exactly one of the two bits reads 1 the poll keeps sampling
until the 1000-iteration budget is exhausted and then fails. -/
theorem c1_dataaccept_poll (env : Env) (s : St) :
    ((∀ i, i < 1000 → portaVal env (s.portaReads + i) = ns ∨
        portaVal env (s.portaReads + i) = cd) →
      pollPorta env s =
        (false, { s with portaReads := s.portaReads + 1000 })) ∧
    (∀ k, k < 1000 →
      (∀ i, i < k → portaVal env (s.portaReads + i) = ns ∨
        portaVal env (s.portaReads + i) = cd) →
      portaVal env (s.portaReads + k) = 0 →
      pollPorta env s =
        (false, { s with portaReads := s.portaReads + k + 1 })) ∧
    (∀ k, k < 1000 →
      (∀ i, i < k → portaVal env (s.portaReads + i) = ns ∨
        portaVal env (s.portaReads + i) = cd) →
      portaVal env (s.portaReads + k) = cd ||| ns →
      pollPorta env s =
        (true, { s with portaReads := s.portaReads + k + 1 })) :=
  ⟨pollPorta_mixed env s,
   fun k hk h h0 => pollPorta_first0 env s k hk h h0,
   fun k hk h h3 => pollPorta_first3 env s k hk h h3⟩

theorem c1_dataaccept_poll_witness :
    pollPorta onesPortaEnv st0 =
      (false, { st0 with portaReads := st0.portaReads + 1000 }) ∧
    pollPorta zeroPortaEnv st0 =
      (false, { st0 with portaReads := st0.portaReads + 0 + 1 }) ∧
    pollPorta threePortaEnv st0 =
      (true, { st0 with portaReads := st0.portaReads + 0 + 1 }) :=
  ⟨(c1_dataaccept_poll onesPortaEnv st0).1
     (fun i _ => Or.inl (by norm_num [portaVal, onesPortaEnv, read32m, ns, cd])),
   (c1_dataaccept_poll zeroPortaEnv st0).2.1 0 (by decide)
     (fun i hi => absurd hi (Nat.not_lt_zero i)) (by decide),
   (c1_dataaccept_poll threePortaEnv st0).2.2 0 (by decide)
     (fun i hi => absurd hi (Nat.not_lt_zero i)) (by decide)⟩

set_option maxRecDepth 100000 in
/-- Claim C1 counterexample: under an oracle whose port A reports
nSTATUS = 1 and CONF_DONE = 0 at every sampled instant (so one monitored
bit reads 0 from the very first sample), the run does not fail within one
poll iteration as the claim requires: it keeps polling through all 1000
iterations of the budget before failing the data-accept phase. -/
theorem c1_counterexample :
    read32m (mixedRunEnv.porta 0) &&& (cd ||| ns) = ns ∧
    (loadFPGA mixedRunEnv [] false).outcome =
      Outcome.failure Phase.dataAccept ∧
    (loadFPGA mixedRunEnv [] false).final.portaReads = 1000 ∧
    (1000 : Nat) ≠ 1 := by
  refine ⟨by decide, ?_, ?_, by decide⟩ <;> decide

/-- Claim C4, amended: every poll samples the register afresh at each
iteration, and the three mode polls decide success from a dedicated
post-loop re-read (the decision equals the predicate of the final read
performed, one read past the loop, and after an exhausted loop the
decision is taken from a read at the moment of the check); but the
data-accept and DCLK polls base their post-budget failure decision on the
value remembered from the final loop iteration: they perform exactly 1000
(respectively 100) reads and fail without a fresh decision read. -/
theorem c4_fresh_sampling (env : Env) (t : Nat) (s : St) :
    (∃ k, 1 ≤ k ∧ k ≤ 1001 ∧
      pollMode env t s =
        ((get_state (read32m (env.stat (s.statReads + k - 1))) == t),
          { s with statReads := s.statReads + k })) ∧
    ((∀ i, i < 1000 → get_state (read32m (env.stat (s.statReads + i))) ≠ t) →
      pollMode env t s =
        ((get_state (read32m (env.stat (s.statReads + 1000))) == t),
          { s with statReads := s.statReads + 1001 })) ∧
    ((∀ i, i < 1000 → portaVal env (s.portaReads + i) = ns ∨
        portaVal env (s.portaReads + i) = cd) →
      pollPorta env s =
        (false, { s with portaReads := s.portaReads + 1000 })) ∧
    ((∀ i, i < 100 →
        read32m (env.dclk (s.dclkReads + i)) &&& dcntdone ≠ dcntdone) →
      pollDclk env s = (false, { s with dclkReads := s.dclkReads + 100 })) :=
  ⟨pollMode_frame env t s, pollMode_notfound env t s,
   pollPorta_mixed env s, pollDclk_notdone env s⟩

theorem c4_fresh_sampling_witness :
    pollMode onesPortaEnv 1 st0 =
      ((get_state (read32m (onesPortaEnv.stat (st0.statReads + 1000))) == 1),
        { st0 with statReads := st0.statReads + 1001 }) ∧
    pollPorta onesPortaEnv st0 =
      (false, { st0 with portaReads := st0.portaReads + 1000 }) ∧
    pollDclk onesPortaEnv st0 =
      (false, { st0 with dclkReads := st0.dclkReads + 100 }) :=
  ⟨(c4_fresh_sampling onesPortaEnv 1 st0).2.1
     (fun i _ => by norm_num [onesPortaEnv, read32m, get_state]),
   (c4_fresh_sampling onesPortaEnv 1 st0).2.2.1
     (fun i _ => Or.inl (by norm_num [portaVal, onesPortaEnv, read32m, ns, cd])),
   (c4_fresh_sampling onesPortaEnv 1 st0).2.2.2
     (fun i _ => by norm_num [onesPortaEnv, read32m, dcntdone])⟩

set_option maxRecDepth 100000 in
/-- Claim C4 counterexample: under an oracle whose port A reads the mixed
combination for the first 1000 samples and both bits 1 from sample 1000
on, the data-accept poll of the code fails after exactly 1000 reads, while
the variant that bases the post-budget decision on a fresh read (as the
claim asserts the code does) succeeds: the decision is taken from the
remembered value, not a fresh sample. -/
theorem c4_counterexample :
    (pollPorta freshEnv st0).1 = false ∧
    (pollPorta freshEnv st0).2.portaReads = 1000 ∧
    (pollPortaFresh freshEnv st0).1 = true := by
  refine ⟨?_, ?_, ?_⟩ <;> decide

theorem loadFPGA_outcome (env : Env) (img : List Nat) (dbg : Bool) :
    (loadFPGA env img dbg).outcome =
      (if (pollMode env mode_reset (preludeSt env)).1
        then afterReset env img dbg (pollMode env mode_reset (preludeSt env)).2
        else (Outcome.failure Phase.reset,
          (pollMode env mode_reset (preludeSt env)).2)).1 := rfl

theorem loadFPGA_final (env : Env) (img : List Nat) (dbg : Bool) :
    (loadFPGA env img dbg).final =
      (if (pollMode env mode_reset (preludeSt env)).1
        then afterReset env img dbg (pollMode env mode_reset (preludeSt env)).2
        else (Outcome.failure Phase.reset,
          (pollMode env mode_reset (preludeSt env)).2)).2 := rfl

theorem loadFPGA_warn (env : Env) (img : List Nat) (dbg : Bool) :
    (loadFPGA env img dbg).warn =
      (get_msel (read32m (env.stat 0)) != 0x0a) := rfl

/-- Claim C5 (amended): at the configuration-setup step the sequencer
writes the control register with a value that keeps the cdratio and
cfgwdth bit fields at whatever value the hardware register held before the
run (masked in from the prior value), clears every other bit and sets the
enable bit: the second write of every run is to the control register with
value 0x01 OR (prior ctrl AND 0x02c0). -/
theorem c5_step1_preserves_fields (env : Env) (img : List Nat) (dbg : Bool) :
    (loadFPGA env img dbg).final.writes[1]? =
      some (Reg.ctrl,
        0x01 ||| (read32m env.ctrl0 &&& (cdratio ||| cfgwdth))) := by
  rw [loadFPGA_final]
  obtain ⟨b, k, heq⟩ := pollMode_pair env mode_reset (preludeSt env)
  rw [heq]
  cases b
  · rw [if_neg (by simp)]
    show (preludeWrites env)[1]? = _
    simp [preludeWrites, ctrl1_eq]
  · rw [if_pos rfl]
    obtain ⟨l, hl⟩ := afterReset_prefixW env img dbg
      { preludeSt env with statReads := (preludeSt env).statReads + k }
    have hwp : ({ preludeSt env with
        statReads := (preludeSt env).statReads + k }).writes =
        preludeWrites env := rfl
    rw [hwp] at hl
    rw [hl, List.getElem?_append_left (by simp [preludeWrites])]
    simp [preludeWrites, ctrl1_eq]

set_option maxRecDepth 10000 in
/-- Claim C5 counterexample: two runs that differ only in the value the
control register held before the run write different values for the
cdratio and cfgwdth fields at step 1, so those fields are not written with
fixed constants: they are inherited from the pre-run register value. -/
theorem c5_counterexample :
    ((loadFPGA goodEnv [] false).final.writes[1]?).map
        (fun p => p.2 &&& (cdratio ||| cfgwdth)) = some 0 ∧
    ((loadFPGA env5b [] false).final.writes[1]?).map
        (fun p => p.2 &&& (cdratio ||| cfgwdth)) = some 0x2c0 ∧
    (0 : Nat) ≠ 0x2c0 := by
  refine ⟨?_, ?_, by decide⟩ <;> decide

/-- Claim C3: for every image of exactly N 32-bit words, a run that
reaches the streaming step (one that does not fail in the Reset or
Configuration phase) performs exactly N writes to the configuration data
port, in the original word order, with no reordering, duplication or
drop. -/
theorem c3_stream_exact (env : Env) (img : List Nat) (dbg : Bool)
    (hw : ∀ w ∈ img, w < 4294967296)
    (h1 : (loadFPGA env img dbg).outcome ≠ Outcome.failure Phase.reset)
    (h2 : (loadFPGA env img dbg).outcome ≠ Outcome.failure Phase.config) :
    dataWritesL (loadFPGA env img dbg).final.writes = img := by
  have himg : img.map read32m = img := by
    have h := List.map_congr_left
      (fun a ha => (read32m_eq_of_lt (hw a ha) : read32m a = id a))
    rw [h]
    exact List.map_id img
  rw [loadFPGA_outcome] at h1 h2
  rw [loadFPGA_final]
  obtain ⟨b, k, heq⟩ := pollMode_pair env mode_reset (preludeSt env)
  rw [heq] at h1 h2 ⊢
  cases b
  · rw [if_neg (by simp)] at h1
    simp at h1
  · rw [if_pos rfl] at h2 ⊢
    rw [afterReset_dataW env img dbg _ h2]
    have hwp : ({ preludeSt env with
        statReads := (preludeSt env).statReads + k }).writes =
        preludeWrites env := rfl
    rw [hwp, preludeWrites_dataW, List.nil_append, himg]

theorem c3_stream_exact_witness :
    (∀ w ∈ [5, 6, 7], w < 4294967296) ∧
    dataWritesL (loadFPGA goodEnv [5, 6, 7] false).final.writes =
      [5, 6, 7] :=
  ⟨by decide, c3_stream_exact goodEnv [5, 6, 7] false (by decide) (by decide)
    (by decide)⟩

/-- Claim C10: with rbf_size = 0 the streaming loop performs zero writes
to the configuration data port and loadFPGA performs no non-emptiness
check: the run proceeds past streaming to the CONF_DONE/nSTATUS poll
(sampling port A at least once whenever the Reset and Configuration
phases pass) and can even complete successfully. -/
theorem c10_empty_image (env : Env) (dbg : Bool) :
    dataWritesL (loadFPGA env [] dbg).final.writes = [] ∧
    ((loadFPGA env [] dbg).outcome ≠ Outcome.failure Phase.reset →
      (loadFPGA env [] dbg).outcome ≠ Outcome.failure Phase.config →
      1 ≤ (loadFPGA env [] dbg).final.portaReads) ∧
    (loadFPGA goodEnv [] false).outcome = Outcome.success := by
  refine ⟨?_, ?_, by decide⟩
  · rw [loadFPGA_final]
    obtain ⟨b, k, heq⟩ := pollMode_pair env mode_reset (preludeSt env)
    rw [heq]
    cases b
    · rw [if_neg (by simp)]
      show dataWritesL (preludeWrites env) = []
      exact preludeWrites_dataW env
    · rw [if_pos rfl]
      by_cases hcfg : (afterReset env [] dbg
          { preludeSt env with
              statReads := (preludeSt env).statReads + k }).1 =
          Outcome.failure Phase.config
      · rw [afterReset_dataW_config env [] dbg _ hcfg]
        exact preludeWrites_dataW env
      · rw [afterReset_dataW env [] dbg _ hcfg]
        have hwp : ({ preludeSt env with
            statReads := (preludeSt env).statReads + k }).writes =
            preludeWrites env := rfl
        rw [hwp, preludeWrites_dataW]
        simp
  · intro h1 h2
    rw [loadFPGA_outcome] at h1 h2
    rw [loadFPGA_final]
    obtain ⟨b, k, heq⟩ := pollMode_pair env mode_reset (preludeSt env)
    rw [heq] at h1 h2 ⊢
    cases b
    · rw [if_neg (by simp)] at h1
      simp at h1
    · rw [if_pos rfl] at h2 ⊢
      have hge := afterReset_portaReads_ge env [] dbg _ h2
      simpa [preludeSt] using hge

theorem c10_empty_image_witness :
    ((loadFPGA goodEnv [] false).outcome ≠ Outcome.failure Phase.reset) ∧
    ((loadFPGA goodEnv [] false).outcome ≠ Outcome.failure Phase.config) ∧
    1 ≤ (loadFPGA goodEnv [] false).final.portaReads :=
  ⟨by decide, by decide,
    (c10_empty_image goodEnv false).2.1 (by decide) (by decide)⟩

/-- Claim C6: if the status register mode bits never read Reset while the
reset poll samples them (loop reads at indices 1 to 1000 and the post-loop
decision read at index 1001), the run fails in the Reset phase, performs
no write to the configuration data port, and never samples port A or the
DCLK status register. -/
theorem c6_reset_timeout (env : Env) (img : List Nat) (dbg : Bool)
    (h : ∀ i, 1 ≤ i → i ≤ 1001 →
      get_state (read32m (env.stat i)) ≠ mode_reset) :
    (loadFPGA env img dbg).outcome = Outcome.failure Phase.reset ∧
    dataWritesL (loadFPGA env img dbg).final.writes = [] ∧
    (loadFPGA env img dbg).final.portaReads = 0 ∧
    (loadFPGA env img dbg).final.dclkReads = 0 := by
  have hpm := pollMode_notfound env mode_reset (preludeSt env)
    (fun i hi => by
      have hx := h (1 + i) (by omega) (by omega)
      simpa [preludeSt] using hx)
  have hdec : (get_state (read32m
      (env.stat ((preludeSt env).statReads + 1000))) == mode_reset) =
      false := by
    have hx := h 1001 (by omega) (by omega)
    simpa [preludeSt] using hx
  have hif : pollMode env mode_reset (preludeSt env) =
      (false, { preludeSt env with
        statReads := (preludeSt env).statReads + 1001 }) := by
    rw [hpm, hdec]
  refine ⟨?_, ?_, ?_, ?_⟩
  · rw [loadFPGA_outcome, hif, if_neg (by simp)]
  · rw [loadFPGA_final, hif, if_neg (by simp)]
    exact preludeWrites_dataW env
  · rw [loadFPGA_final, hif, if_neg (by simp)]
    simp [preludeSt]
  · rw [loadFPGA_final, hif, if_neg (by simp)]
    simp [preludeSt]

theorem c6_reset_timeout_witness :
    (loadFPGA zeroEnv [1] false).outcome = Outcome.failure Phase.reset ∧
    dataWritesL (loadFPGA zeroEnv [1] false).final.writes = [] ∧
    (loadFPGA zeroEnv [1] false).final.portaReads = 0 ∧
    (loadFPGA zeroEnv [1] false).final.dclkReads = 0 :=
  c6_reset_timeout zeroEnv [1] false
    (fun i _ _ => by norm_num [zeroEnv, read32m, get_state, mode_reset])

/-- Claim C7: on every successful run the final register mutation of
loadFPGA is a control register write whose value has the enable bit clear
(hand-back to the external pins); on every failing run the stored control
register is left with the enable bit still set, with no hand-back
performed. -/
theorem c7_enable_handback (env : Env) (img : List Nat) (dbg : Bool) :
    ((loadFPGA env img dbg).outcome = Outcome.success →
      ∃ v, (loadFPGA env img dbg).final.writes.getLast? =
          some (Reg.ctrl, v) ∧ v &&& en = 0) ∧
    (∀ p, (loadFPGA env img dbg).outcome = Outcome.failure p →
      (loadFPGA env img dbg).final.ctrl &&& en = en) := by
  rw [loadFPGA_outcome, loadFPGA_final]
  obtain ⟨b, k, heq⟩ := pollMode_pair env mode_reset (preludeSt env)
  rw [heq]
  cases b
  · rw [if_neg (by simp)]
    constructor
    · intro hok
      simp at hok
    · intro p _
      simpa [preludeSt, en] using ctrl4_bit0 env
  · rw [if_pos rfl]
    have h := afterReset_c7 env img dbg
      { preludeSt env with statReads := (preludeSt env).statReads + k }
      (by simpa [preludeSt] using ctrl4_bit0 env)
    simpa [en] using h

theorem c7_enable_handback_witness :
    ((loadFPGA goodEnv [2] false).outcome = Outcome.success) ∧
    (∃ v, (loadFPGA goodEnv [2] false).final.writes.getLast? =
        some (Reg.ctrl, v) ∧ v &&& en = 0) ∧
    ((loadFPGA zeroEnv [2] false).outcome =
        Outcome.failure Phase.reset) ∧
    (loadFPGA zeroEnv [2] false).final.ctrl &&& en = en :=
  ⟨by decide,
   (c7_enable_handback goodEnv [2] false).1 (by decide),
   by decide,
   (c7_enable_handback zeroEnv [2] false).2 Phase.reset (by decide)⟩

theorem ctrl1_congr (env1 env2 : Env) (hc : env1.ctrl0 = env2.ctrl0) :
    ctrl1 env1 = ctrl1 env2 := by
  unfold ctrl1
  rw [hc]

theorem ctrl2_congr (env1 env2 : Env) (hc : env1.ctrl0 = env2.ctrl0) :
    ctrl2 env1 = ctrl2 env2 := by
  unfold ctrl2
  rw [ctrl1_congr env1 env2 hc]

theorem ctrl3_congr (env1 env2 : Env) (hc : env1.ctrl0 = env2.ctrl0) :
    ctrl3 env1 = ctrl3 env2 := by
  unfold ctrl3
  rw [ctrl2_congr env1 env2 hc]

theorem ctrl4_congr (env1 env2 : Env) (hc : env1.ctrl0 = env2.ctrl0) :
    ctrl4 env1 = ctrl4 env2 := by
  unfold ctrl4
  rw [ctrl3_congr env1 env2 hc]

theorem preludeSt_congr (env1 env2 : Env) (hc : env1.ctrl0 = env2.ctrl0) :
    preludeSt env1 = preludeSt env2 := by
  unfold preludeSt preludeWrites
  rw [ctrl1_congr env1 env2 hc, ctrl2_congr env1 env2 hc,
    ctrl3_congr env1 env2 hc, ctrl4_congr env1 env2 hc]

theorem loadFPGA_congr (env1 env2 : Env) (img : List Nat) (dbg : Bool)
    (hc : env1.ctrl0 = env2.ctrl0)
    (hstat : ∀ i, 1 ≤ i → env1.stat i = env2.stat i)
    (hp : env1.porta = env2.porta) (hd : env1.dclk = env2.dclk) :
    (loadFPGA env1 img dbg).outcome = (loadFPGA env2 img dbg).outcome ∧
    (loadFPGA env1 img dbg).final = (loadFPGA env2 img dbg).final := by
  rw [loadFPGA_outcome, loadFPGA_outcome, loadFPGA_final, loadFPGA_final,
    preludeSt_congr env1 env2 hc]
  have hpm := pollMode_congr env1 env2 mode_reset (preludeSt env2)
    (fun i hi => hstat i (by simpa [preludeSt] using hi))
  rw [hpm]
  obtain ⟨b, k, heq⟩ := pollMode_pair env2 mode_reset (preludeSt env2)
  rw [heq]
  cases b
  · exact ⟨rfl, rfl⟩
  · rw [if_pos rfl]
    have har := afterReset_congr env1 env2 img dbg
      { preludeSt env2 with statReads := (preludeSt env2).statReads + k }
      (fun i hi => hstat i (by
        have hx : ({ preludeSt env2 with
            statReads := (preludeSt env2).statReads + k }).statReads =
            1 + k := rfl
        rw [hx] at hi
        omega)) hp hd
    rw [har]
    exact ⟨rfl, rfl⟩

/-- Claim C9: when the MSEL strap reading (taken from the first status
register read) does not match the expected constant 0x0a, the run only
records the warning: replacing the value of that first read by anything
else changes neither the outcome nor any part of the final machine state
(in particular no register write), and the warning flag is exactly the
mismatch predicate on that read. -/
theorem c9_msel_warn_only (env : Env) (img : List Nat) (dbg : Bool)
    (v : Nat) :
    (loadFPGA { env with stat := fun i => if i = 0 then v else env.stat i }
        img dbg).outcome = (loadFPGA env img dbg).outcome ∧
    (loadFPGA { env with stat := fun i => if i = 0 then v else env.stat i }
        img dbg).final = (loadFPGA env img dbg).final ∧
    (loadFPGA { env with stat := fun i => if i = 0 then v else env.stat i }
        img dbg).warn = (get_msel (read32m v) != 0x0a) ∧
    (loadFPGA env img dbg).warn =
      (get_msel (read32m (env.stat 0)) != 0x0a) := by
  obtain ⟨h1, h2⟩ := loadFPGA_congr
    { env with stat := fun i => if i = 0 then v else env.stat i } env img dbg
    rfl
    (fun i hi => by
      have hne : i ≠ 0 := by omega
      simp [hne])
    rfl rfl
  refine ⟨h1, h2, ?_, loadFPGA_warn env img dbg⟩
  rw [loadFPGA_warn]
  simp

